import Mathlib

/-!
# sdfx: screws, knurls, washers and the vector kernel

A shallow embedding of `sdf/vecf.go`, `sdf/screw.go` and `sdf/shapes3.go`.

`float64` is idealised as an arbitrary linearly ordered field `F` with a floor
function; rounding, NaN and infinities are outside the model.  The functions the
Go code takes from package `math` (`Sqrt`, `Atan2`, `Tan`, `Cos`, `Pi`) are the
operations of the class `GoMath`; over `ℝ` they are instantiated with the real
functions.  All other definitions are plain field arithmetic and compute over `ℚ`.
-/

namespace sdf

/-! ## Definitions -/

/-- Package `math` of the Go standard library, as used by the embedded sources. -/
class GoMath (F : Type) where
  /-- Go `math.Sqrt`. -/
  Sqrt : F → F
  /-- Go `math.Atan2(y, x)`. -/
  Atan2 : F → F → F
  /-- Go `math.Tan`. -/
  Tan : F → F
  /-- Go `math.Cos`. -/
  Cos : F → F
  /-- Go `math.Pi`. -/
  Pi : F

/-- The real-number reading of package `math`: `Atan2 y x` is the argument of `x + y i`,
which lies in `(-π, π]` and is `0` at the origin, as `math.Atan2` does. -/
noncomputable instance instGoMathReal : GoMath ℝ where
  Sqrt := Real.sqrt
  Atan2 := fun y x => Complex.arg ⟨x, y⟩
  Tan := Real.tan
  Cos := Real.cos
  Pi := Real.pi

/-- Type `V3` of `vecf.go`. -/
structure V3 (F : Type) where
  X : F
  Y : F
  Z : F

/-- Type `V2` of `vecf.go`. -/
structure V2 (F : Type) where
  X : F
  Y : F

/-- Modelled from the spec: the 2D bounding box, a `{min, max}` corner pair (its Go
declaration is not among the embedded sources). -/
structure Box2 (F : Type) where
  Min : V2 F
  Max : V2 F

/-- Modelled from the spec: the 3D bounding box, a `{min, max}` corner pair (its Go
declaration is not among the embedded sources). -/
structure Box3 (F : Type) where
  Min : V3 F
  Max : V3 F

/-- Modelled from the spec: the 2D SDF node interface, the capability set
`{evaluate(point) → signed distance, bounding_box() → box}` (the Go interface `SDF2`
is not among the embedded sources). -/
structure SDF2 (F : Type) where
  Evaluate : V2 F → F
  BoundingBox : Box2 F

/-- Modelled from the spec: the 3D SDF node interface, the capability set
`{evaluate(point) → signed distance, bounding_box() → box}` (the Go interface `SDF3`
is not among the embedded sources). -/
structure SDF3 (F : Type) where
  Evaluate : V3 F → F
  BoundingBox : Box3 F

section Kernel

variable {F : Type} [LinearOrderedField F] [FloorRing F]

/-- Modelled from the spec: the scalar helper `Abs` (`|z|` in step 7 of the helical
mapping); its Go definition is not among the embedded sources. -/
def Abs (x : F) : F := |x|

/-- Modelled from the spec: the scalar helper `Max` (`max(d0, d1)` in step 8 of the
helical mapping); its Go definition is not among the embedded sources. -/
def Max (a b : F) : F := max a b

/-- Modelled from the spec: the scalar helper `Min`, the counterpart of `Max`; its Go
definition is not among the embedded sources. -/
def Min (a b : F) : F := min a b

/-- Modelled from the spec: the sawtooth fold of step 5 of the helical mapping, "a
sawtooth function with period `pitch`, centered so the result lies in
`[-pitch/2, pitch/2)`"; the Go helper `SawTooth` is not among the embedded sources. -/
def SawTooth (x period : F) : F :=
  period * Int.fract ((x + period / 2) / period) - period / 2

end Kernel

section Libm

variable {F : Type} [LinearOrderedField F] [FloorRing F] [GoMath F]

/-- Modelled from the spec: the constant `TAU`, the full turn `2π` of step 4 of the
helical mapping; its Go declaration is not among the embedded sources. -/
def TAU : F := 2 * GoMath.Pi

/-- Struct `ScrewSDF3` of `screw.go`. -/
structure ScrewSDF3 (F : Type) where
  /-- 2D thread profile -/
  thread : SDF2 F
  /-- thread to thread distance -/
  pitch : F
  /-- distance per turn (starts * pitch) -/
  lead : F
  /-- total length of screw -/
  length : F
  /-- number of thread starts -/
  starts : Int
  /-- bounding box -/
  bb : Box3 F

/-- Function `Screw3D` of `screw.go`.  The field `starts` is never assigned by the
source and keeps the zero value of the struct literal `ScrewSDF3{}`. -/
def Screw3D (thread : SDF2 F) (length pitch : F) (starts : Int) : ScrewSDF3 F :=
  let s_length := length / 2
  let bb := thread.BoundingBox
  let r := bb.Max.Y
  { thread := thread
    pitch := pitch
    length := s_length
    lead := -pitch * (starts : F)
    starts := 0
    bb := ⟨⟨-r, -r, -s_length⟩, ⟨r, r, s_length⟩⟩ }

/-- Method `(*ScrewSDF3).Evaluate` of `screw.go`. -/
def ScrewSDF3.Evaluate (s : ScrewSDF3 F) (p : V3 F) : F :=
  let p0Y := GoMath.Sqrt (p.X * p.X + p.Y * p.Y)
  let theta := GoMath.Atan2 p.Y p.X
  let z := p.Z + s.lead * theta / TAU
  let p0X := SawTooth z s.pitch
  let d0 := s.thread.Evaluate ⟨p0X, p0Y⟩
  let d1 := Abs p.Z - s.length
  Max d0 d1

/-- Method `(*ScrewSDF3).BoundingBox` of `screw.go`. -/
def ScrewSDF3.BoundingBox (s : ScrewSDF3 F) : Box3 F := s.bb

/-- The screw as a value of the interface `SDF3` (the `&s` returned by `Screw3D`). -/
def ScrewSDF3.toSDF3 (s : ScrewSDF3 F) : SDF3 F :=
  ⟨s.Evaluate, s.BoundingBox⟩

/-- The point of the thread profile at which `(*ScrewSDF3).Evaluate` reads the
profile distance: the local `p0` of the method body. -/
def ScrewSDF3.profilePoint (s : ScrewSDF3 F) (p : V3 F) : V2 F :=
  ⟨SawTooth (p.Z + s.lead * GoMath.Atan2 p.Y p.X / TAU) s.pitch,
    GoMath.Sqrt (p.X * p.X + p.Y * p.Y)⟩

/-- The outcome of a Go call `Screw3D(thread, length, pitch, starts)`, with a panic as
`Except.error`.  The body of `Screw3D` has no `panic` statement, no error result and no
test on its arguments, so every call returns the screw it built. -/
def Screw3D.call (thread : SDF2 F) (length pitch : F) (starts : Int) :
    Except String (ScrewSDF3 F) :=
  Except.ok (Screw3D thread length pitch starts)

/-- Modelled from the spec: the intersection operator, "distance = max(children's
distances)".  The Go function `Intersect3D` is not among the embedded sources and the
spec names no box for it; the box of the first operand is reported, which contains the
intersection. -/
def Intersect3D (s0 s1 : SDF3 F) : SDF3 F :=
  ⟨fun p => max (s0.Evaluate p) (s1.Evaluate p), s0.BoundingBox⟩

/-- Modelled from the spec: the difference operator `A minus B`, "distance =
max(A, −B)".  The Go function `Difference3D` is not among the embedded sources and the
spec names no box for it; the box of the first operand is reported, which contains the
difference. -/
def Difference3D (s0 s1 : SDF3 F) : SDF3 F :=
  ⟨fun p => max (s0.Evaluate p) (-(s1.Evaluate p)), s0.BoundingBox⟩

/-- The least value of the Go type `int` on a 64-bit platform. -/
def MinInt64 : Int := -2 ^ 63

/-- The greatest value of the Go type `int` on a 64-bit platform. -/
def MaxInt64 : Int := 2 ^ 63 - 1

/-- The Go quotient `a / b` of two `float64` as a finite value: `none` when `b` is zero,
where Go yields an infinity or NaN, which no element of the field stands for. -/
def GoQuo (a b : F) : Option F := if b = 0 then none else some (a / b)

/-- The Go conversion `int(x)` of a `float64`: the fraction is discarded (truncation
towards zero).  `none` when the truncated value is not an `int` (outside
`[MinInt64, MaxInt64]`): the Go specification leaves that result to the implementation. -/
def GoInt (x : F) : Option Int :=
  let n : Int := if 0 ≤ x then ⌊x⌋ else ⌈x⌉
  if MinInt64 ≤ n ∧ n ≤ MaxInt64 then some n else none

/-- The Go negation `-n` of an `int`: it wraps around, so `-MinInt64` is `MinInt64`. -/
def GoNeg (n : Int) : Int := if n = MinInt64 then MinInt64 else -n

/-- Function `KnurlProfile` of `shapes3.go`.  The polygon builder and `Polygon2D` are
not among the embedded sources: `Polygon2D` is a parameter, and `knurl.Vertices()` is
the list of the five vertices in the order they are added (no rounding is requested,
so each vertex passes through unchanged). -/
def KnurlProfile (Polygon2D : List (V2 F) → SDF2 F) (radius pitch height : F) : SDF2 F :=
  Polygon2D
    [⟨pitch / 2, 0⟩, ⟨pitch / 2, radius⟩, ⟨0, radius + height⟩, ⟨-pitch / 2, radius⟩,
      ⟨-pitch / 2, 0⟩]

/-- The start count `n` computed by the first statement of `Knurl3D` in `shapes3.go`:
`n := int(TAU * radius * math.Tan(theta) / pitch)`.  `none` where Go does not determine
the value: the quotient is not finite (`pitch = 0`) or its truncation is not an `int`. -/
def Knurl3D.starts (radius pitch theta : F) : Option Int :=
  match GoQuo (TAU * radius * GoMath.Tan theta) pitch with
  | none => none
  | some q => GoInt q

/-- Function `Knurl3D` of `shapes3.go`.  `none` where the start count `n` is not
determined by the Go language (see `Knurl3D.starts`); the negation `-n` is that of the
Go type `int`. -/
def Knurl3D (Polygon2D : List (V2 F) → SDF2 F) (length radius pitch height theta : F) :
    Option (SDF3 F) :=
  match Knurl3D.starts radius pitch theta with
  | none => none
  | some n =>
    let knurl_2d := KnurlProfile Polygon2D radius pitch height
    let knurl0_3d := Screw3D knurl_2d length pitch n
    let knurl1_3d := Screw3D knurl_2d length pitch (GoNeg n)
    some (Intersect3D knurl0_3d.toSDF3 knurl1_3d.toSDF3)

/-- Function `Washer3D` of `shapes3.go`, with a panic as `Except.error` carrying the
panic message.  `Cylinder3D` is not among the embedded sources and is a parameter. -/
def Washer3D (Cylinder3D : F → F → F → SDF3 F) (t r_inner r_outer : F) :
    Except String (SDF3 F) :=
  if t ≤ 0 then
    Except.error "t <= 0"
  else if r_inner ≥ r_outer then
    Except.error "r_inner >= r_outer"
  else
    Except.ok (Difference3D (Cylinder3D t r_outer 0) (Cylinder3D t r_inner 0))

/-- A test profile: the unrolled plain rod of radius `R`, whose distance field is the
signed distance `y - R` to the line `y = R`, boxed over one unit of pitch. -/
def rodProfile (R : F) : SDF2 F :=
  ⟨fun q => q.Y - R, ⟨⟨-(1 / 2), 0⟩, ⟨1 / 2, R⟩⟩⟩

/-- Modelled from the spec: the cylinder primitive without edge rounding, "combining the
radial distance (|xy| − r) and axial distance (|z| − h/2)" by `max`; the rounding argument
is accepted and not used.  The Go function `Cylinder3D` is not among the embedded
sources; this stands for it where a concrete cylinder is wanted. -/
def plainCylinder3D (height radius _round : F) : SDF3 F :=
  ⟨fun p => max (GoMath.Sqrt (p.X * p.X + p.Y * p.Y) - radius) (|p.Z| - height / 2),
    ⟨⟨-radius, -radius, -(height / 2)⟩, ⟨radius, radius, height / 2⟩⟩⟩

end Libm

section VectorKernel

variable {F : Type} [LinearOrderedField F] [FloorRing F]

/-- Type `V2Set` of `vecf.go`: a slice of 2D vectors. -/
abbrev V2Set (F : Type) := List (V2 F)

/-- Type `V3Set` of `vecf.go`: a slice of 3D vectors. -/
abbrev V3Set (F : Type) := List (V3 F)

/-- Method `V3.Dot` of `vecf.go`. -/
def V3.Dot (a b : V3 F) : F := a.X * b.X + a.Y * b.Y + a.Z * b.Z

/-- Method `V2.Dot` of `vecf.go`. -/
def V2.Dot (a b : V2 F) : F := a.X * b.X + a.Y * b.Y

/-- Method `V3.MulScalar` of `vecf.go`. -/
def V3.MulScalar (a : V3 F) (b : F) : V3 F := ⟨a.X * b, a.Y * b, a.Z * b⟩

/-- Method `V2.MulScalar` of `vecf.go`. -/
def V2.MulScalar (a : V2 F) (b : F) : V2 F := ⟨a.X * b, a.Y * b⟩

/-- Method `V3.Min` of `vecf.go`: the minimum components of two vectors. -/
def V3.Min (a b : V3 F) : V3 F := ⟨sdf.Min a.X b.X, sdf.Min a.Y b.Y, sdf.Min a.Z b.Z⟩

/-- Method `V2.Min` of `vecf.go`: the minimum components of two vectors. -/
def V2.Min (a b : V2 F) : V2 F := ⟨sdf.Min a.X b.X, sdf.Min a.Y b.Y⟩

/-- Method `V3.Max` of `vecf.go`: the maximum components of two vectors. -/
def V3.Max (a b : V3 F) : V3 F := ⟨sdf.Max a.X b.X, sdf.Max a.Y b.Y, sdf.Max a.Z b.Z⟩

/-- Method `V2.Max` of `vecf.go`: the maximum components of two vectors. -/
def V2.Max (a b : V2 F) : V2 F := ⟨sdf.Max a.X b.X, sdf.Max a.Y b.Y⟩

/-- Method `V3.Sub` of `vecf.go`. -/
def V3.Sub (a b : V3 F) : V3 F := ⟨a.X - b.X, a.Y - b.Y, a.Z - b.Z⟩

/-- Method `V2.Sub` of `vecf.go`. -/
def V2.Sub (a b : V2 F) : V2 F := ⟨a.X - b.X, a.Y - b.Y⟩

/-- The message of the Go run-time panic raised by the index expression `a[0]` on an
empty slice. -/
def indexPanic : String := "runtime error: index out of range [0] with length 0"

/-- Method `V3Set.Min` of `vecf.go`.  The index expression `a[0]` panics on an empty
slice, which is the `Except.error` outcome; the `range` loop starts again at the first
member. -/
def V3Set.Min (a : V3Set F) : Except String (V3 F) :=
  match a with
  | [] => Except.error indexPanic
  | a0 :: _ => Except.ok (a.foldl (fun vmin v => vmin.Min v) a0)

/-- Method `V2Set.Min` of `vecf.go`.  The index expression `a[0]` panics on an empty
slice, which is the `Except.error` outcome; the `range` loop starts again at the first
member. -/
def V2Set.Min (a : V2Set F) : Except String (V2 F) :=
  match a with
  | [] => Except.error indexPanic
  | a0 :: _ => Except.ok (a.foldl (fun vmin v => vmin.Min v) a0)

/-- Method `V3Set.Max` of `vecf.go`.  The index expression `a[0]` panics on an empty
slice, which is the `Except.error` outcome; the `range` loop starts again at the first
member. -/
def V3Set.Max (a : V3Set F) : Except String (V3 F) :=
  match a with
  | [] => Except.error indexPanic
  | a0 :: _ => Except.ok (a.foldl (fun vmax v => vmax.Max v) a0)

/-- Method `V2Set.Max` of `vecf.go`.  The index expression `a[0]` panics on an empty
slice, which is the `Except.error` outcome; the `range` loop starts again at the first
member. -/
def V2Set.Max (a : V2Set F) : Except String (V2 F) :=
  match a with
  | [] => Except.error indexPanic
  | a0 :: _ => Except.ok (a.foldl (fun vmax v => vmax.Max v) a0)

/-- Method `V3.Cross` of `vecf.go`. -/
def V3.Cross (a b : V3 F) : V3 F :=
  let x := a.Y * b.Z - a.Z * b.Y
  let y := a.Z * b.X - a.X * b.Z
  let z := a.X * b.Y - a.Y * b.X
  ⟨x, y, z⟩

/-- Method `V2.Cross` of `vecf.go`. -/
def V2.Cross (a b : V2 F) : F := (a.X * b.Y) - (a.Y * b.X)

/-- Method `V2.Neg` of `vecf.go`: negate the vector. -/
def V2.Neg (a : V2 F) : V2 F := ⟨-a.X, -a.Y⟩

/-- Method `V3.Neg` of `vecf.go`: negate the vector. -/
def V3.Neg (a : V3 F) : V3 F := ⟨-a.X, -a.Y, -a.Z⟩

/-- Method `V3.Add` of `vecf.go`. -/
def V3.Add (a b : V3 F) : V3 F := ⟨a.X + b.X, a.Y + b.Y, a.Z + b.Z⟩

/-- Method `V2.Add` of `vecf.go`. -/
def V2.Add (a b : V2 F) : V2 F := ⟨a.X + b.X, a.Y + b.Y⟩

/-- Function `Colinear_Fast` of `vecf.go`: the cross product as a measure of
colinearity. -/
def Colinear_Fast (a b c : V2 F) (tolerance : F) : Bool :=
  let ac := a.Sub b
  let bc := b.Sub c
  decide (Abs (ac.Cross bc) < tolerance)

/-- Method `V3.Length2` of `vecf.go`. -/
def V3.Length2 (a : V3 F) : F := a.X * a.X + a.Y * a.Y + a.Z * a.Z

/-- Method `V2.Length2` of `vecf.go`. -/
def V2.Length2 (a : V2 F) : F := a.X * a.X + a.Y * a.Y

/-- Method `V2.Overlap` of `vecf.go`: do `a` and `b`, considered as 1D line segments,
overlap? -/
def V2.Overlap (a b : V2 F) : Bool := decide (a.Y ≥ b.X) && decide (b.Y ≥ a.X)

end VectorKernel

section VectorLibm

variable {F : Type} [LinearOrderedField F] [FloorRing F] [GoMath F]

/-- Method `V3.Length` of `vecf.go`. -/
def V3.Length (a : V3 F) : F := GoMath.Sqrt (a.X * a.X + a.Y * a.Y + a.Z * a.Z)

/-- Method `V2.Length` of `vecf.go`. -/
def V2.Length (a : V2 F) : F := GoMath.Sqrt (a.X * a.X + a.Y * a.Y)

/-- Method `V3.Normalize` of `vecf.go`. -/
def V3.Normalize (a : V3 F) : V3 F :=
  let d := a.Length
  ⟨a.X / d, a.Y / d, a.Z / d⟩

/-- Method `V2.Normalize` of `vecf.go`. -/
def V2.Normalize (a : V2 F) : V2 F :=
  let d := a.Length
  ⟨a.X / d, a.Y / d⟩

end VectorLibm

section Polygons

variable {F : Type} [LinearOrderedField F] [FloorRing F]

/-- Modelled from the spec: a vertex of the polygon profile builder, which "may carry a
rounding request: {radius, tessellation-resolution}"; the Go type `PolygonVertex` is not
among the embedded sources. -/
structure PolygonVertex (F : Type) where
  /-- the position of the vertex -/
  vertex : V2 F
  /-- the rounding request `Smooth(radius, facets)`, if one was made -/
  smooth : Option (F × Nat)

/-- Modelled from the spec: the polygon profile builder, an "ordered ... sequence of 2D
vertices ... built incrementally by an append-only builder"; the Go type `Polygon` is not
among the embedded sources. -/
structure Polygon (F : Type) where
  /-- the vertices in the order they were added -/
  vlist : List (PolygonVertex F)

/-- Modelled from the spec: the empty builder returned by `NewPolygon()`. -/
def NewPolygon : Polygon F := ⟨[]⟩

/-- Modelled from the spec: the builder operation `append_vertex(x, y)`, Go `Add(x, y)`. -/
def Polygon.Add (p : Polygon F) (x y : F) : Polygon F :=
  ⟨p.vlist ++ [⟨⟨x, y⟩, none⟩]⟩

/-- Modelled from the spec: the builder operation `request_rounding(radius, resolution)`
"applied to the most-recently-appended vertex", Go `Add(x, y).Smooth(radius, facets)`. -/
def Polygon.Smooth (p : Polygon F) (radius : F) (facets : Nat) : Polygon F :=
  match p.vlist.getLast? with
  | none => p
  | some v => ⟨p.vlist.dropLast ++ [⟨v.vertex, some (radius, facets)⟩]⟩

/-- The freeze of the vertices from position `i` on: a vertex without rounding request
passes through unchanged, a vertex with a request is replaced by its arc `arc all i`. -/
def Polygon.freeze (arc : List (PolygonVertex F) → Nat → List (V2 F))
    (all : List (PolygonVertex F)) : Nat → List (PolygonVertex F) → List (V2 F)
  | _, [] => []
  | i, v :: rest =>
    (match v.smooth with
      | none => [v.vertex]
      | some _ => arc all i) ++ Polygon.freeze arc all (i + 1) rest

/-- Modelled from the spec: the freeze `Vertices()` of a builder.  "Each rounding request
is resolved by replacing the vertex with an arc of `resolution` line segments ...; if no
rounding was requested the vertex passes through unchanged."  The geometry of the arc is
the parameter `arc`, which gets the builder list and the position of the vertex. -/
def Polygon.Vertices (arc : List (PolygonVertex F) → Nat → List (V2 F)) (p : Polygon F) :
    List (V2 F) :=
  Polygon.freeze arc p.vlist 0 p.vlist

/-- The edges of the closed polygon whose first vertex is `first`: consecutive vertices,
and the last vertex joined to the first. -/
def polygonEdges (first : V2 F) : List (V2 F) → List (V2 F × V2 F)
  | [] => []
  | [v] => [(v, first)]
  | v :: w :: rest => (v, w) :: polygonEdges first (w :: rest)

end Polygons

section Threads

variable {F : Type} [LinearOrderedField F] [FloorRing F] [GoMath F]

/-- Modelled from the spec: the distance from the point `p` to the edge segment from `a`
to `b`, the distance to the nearest point `a + t (b - a)`, `0 ≤ t ≤ 1`, of the segment;
a zero-length edge is tolerated (`t = 0`). -/
def segmentDistance (a b p : V2 F) : F :=
  let ab := b.Sub a
  let ap := p.Sub a
  let l2 := ab.Length2
  let t := if l2 = 0 then 0 else max 0 (min 1 (ap.Dot ab / l2))
  (ap.Sub (ab.MulScalar t)).Length

/-- Modelled from the spec: the 2D polygon SDF primitive, which "computes point-to-polygon
signed distance as sign(inside) × min distance to any edge segment, with inside determined
by a crossing-number or winding test".  The inside test is the parameter `inside`; the box
is the component-wise minimum and maximum of the vertices.  The Go function `Polygon2D` is
not among the embedded sources. -/
def PolygonSDF2 (inside : List (V2 F) → V2 F → Bool) (vertex : List (V2 F)) : SDF2 F where
  Evaluate := fun p =>
    match vertex with
    | [] => 0
    | v0 :: _ =>
      match (polygonEdges v0 vertex).map (fun e => segmentDistance e.1 e.2 p) with
      | [] => 0
      | d0 :: ds =>
        let d := ds.foldl min d0
        if inside vertex p then -d else d
  BoundingBox :=
    match V2Set.Min vertex, V2Set.Max vertex with
    | Except.ok lo, Except.ok hi => ⟨lo, hi⟩
    | _, _ => ⟨⟨0, 0⟩, ⟨0, 0⟩⟩

/-- Modelled from the spec: the helper `DtoR`, degrees to radians (`π d / 180`), by which
the sources turn the thread angles they state in degrees into the radians of package
`math`; its Go definition is not among the embedded sources. -/
def DtoR (degrees : F) : F := GoMath.Pi * degrees / 180

/-- The builder state of `AcmeThread` in `screw.go` after its eight `Add` calls. -/
def AcmeThread.polygon (radius pitch : F) : Polygon F :=
  let h := radius - 0.5 * pitch
  let theta := DtoR (29.0 / 2.0)
  let delta := 0.25 * pitch * GoMath.Tan theta
  let x_ofs0 := 0.25 * pitch - delta
  let x_ofs1 := 0.25 * pitch + delta
  let acme := NewPolygon
  let acme := acme.Add radius 0
  let acme := acme.Add radius h
  let acme := acme.Add x_ofs1 h
  let acme := acme.Add x_ofs0 radius
  let acme := acme.Add (-x_ofs0) radius
  let acme := acme.Add (-x_ofs1) h
  let acme := acme.Add (-radius) h
  let acme := acme.Add (-radius) 0
  acme

/-- Function `AcmeThread` of `screw.go`; `Polygon2D` and the arc of the freeze are
parameters. -/
def AcmeThread (arc : List (PolygonVertex F) → Nat → List (V2 F))
    (Polygon2D : List (V2 F) → SDF2 F) (radius pitch : F) : SDF2 F :=
  Polygon2D ((AcmeThread.polygon radius pitch).Vertices arc)

/-- The builder state of `ISOThread` in `screw.go` after the `Add` and `Smooth` calls of
the branch selected by `mode`; any other mode panics with "bad mode". -/
def ISOThread.polygon (radius pitch : F) (mode : String) : Except String (Polygon F) :=
  let theta := DtoR 30.0
  let h := pitch / (2.0 * GoMath.Tan theta)
  let r_major := radius
  let r0 := r_major - (7.0 / 8.0) * h
  let iso := NewPolygon
  if mode = "external" then
    let r_root := (pitch / 8.0) / GoMath.Cos theta
    let x_ofs := (1.0 / 16.0) * pitch
    let iso := iso.Add pitch 0
    let iso := iso.Add pitch (r0 + h)
    let iso := (iso.Add (pitch / 2.0) r0).Smooth r_root 5
    let iso := iso.Add x_ofs r_major
    let iso := iso.Add (-x_ofs) r_major
    let iso := (iso.Add (-pitch / 2.0) r0).Smooth r_root 5
    let iso := iso.Add (-pitch) (r0 + h)
    let iso := iso.Add (-pitch) 0
    Except.ok iso
  else if mode = "internal" then
    let r_minor := r0 + (1.0 / 4.0) * h
    let r_crest := (pitch / 16.0) / GoMath.Cos theta
    let x_ofs := (1.0 / 8.0) * pitch
    let iso := iso.Add pitch 0
    let iso := iso.Add pitch r_minor
    let iso := iso.Add (pitch / 2 - x_ofs) r_minor
    let iso := (iso.Add 0 (r0 + h)).Smooth r_crest 5
    let iso := iso.Add (-pitch / 2 + x_ofs) r_minor
    let iso := iso.Add (-pitch) r_minor
    let iso := iso.Add (-pitch) 0
    Except.ok iso
  else
    Except.error "bad mode"

/-- Function `ISOThread` of `screw.go`, with a panic as `Except.error` carrying the panic
message; `Polygon2D` and the arc of the freeze are parameters. -/
def ISOThread (arc : List (PolygonVertex F) → Nat → List (V2 F))
    (Polygon2D : List (V2 F) → SDF2 F) (radius pitch : F) (mode : String) :
    Except String (SDF2 F) :=
  match ISOThread.polygon radius pitch mode with
  | Except.ok iso => Except.ok (Polygon2D (iso.Vertices arc))
  | Except.error e => Except.error e

/-- The builder state of `ANSIButtressThread` in `screw.go` after its `Add` and `Smooth`
calls. -/
def ANSIButtressThread.polygon (radius pitch : F) : Polygon F :=
  let t0 := GoMath.Tan (DtoR 45.0)
  let t1 := GoMath.Tan (DtoR 7.0)
  let b : F := 0.6
  let h0 := pitch / (t0 + t1)
  let h1 := ((b / 2.0) * pitch) + (0.5 * h0)
  let hp := pitch / 2.0
  let tp := NewPolygon
  let tp := tp.Add pitch 0
  let tp := tp.Add pitch radius
  let tp := tp.Add (hp - ((h0 - h1) * t1)) radius
  let tp := (tp.Add (t0 * h0 - hp) (radius - h1)).Smooth (0.0714 * pitch) 5
  let tp := tp.Add ((h0 - h1) * t0 - hp) radius
  let tp := tp.Add (-pitch) radius
  let tp := tp.Add (-pitch) 0
  tp

/-- Function `ANSIButtressThread` of `screw.go`; `Polygon2D` and the arc of the freeze are
parameters. -/
def ANSIButtressThread (arc : List (PolygonVertex F) → Nat → List (V2 F))
    (Polygon2D : List (V2 F) → SDF2 F) (radius pitch : F) : SDF2 F :=
  Polygon2D ((ANSIButtressThread.polygon radius pitch).Vertices arc)

/-- The builder state of `PlasticButtressThread` in `screw.go` after its `Add` and
`Smooth` calls. -/
def PlasticButtressThread.polygon (radius pitch : F) : Polygon F :=
  let t0 := GoMath.Tan (DtoR 45.0)
  let t1 := GoMath.Tan (DtoR 7.0)
  let b : F := 0.6
  let h0 := pitch / (t0 + t1)
  let h1 := ((b / 2.0) * pitch) + (0.5 * h0)
  let hp := pitch / 2.0
  let tp := NewPolygon
  let tp := tp.Add pitch 0
  let tp := tp.Add pitch radius
  let tp := (tp.Add (hp - ((h0 - h1) * t1)) radius).Smooth (0.05 * pitch) 5
  let tp := (tp.Add (t0 * h0 - hp) (radius - h1)).Smooth (0.15 * pitch) 5
  let tp := (tp.Add ((h0 - h1) * t0 - hp) radius).Smooth (0.15 * pitch) 5
  let tp := tp.Add (-pitch) radius
  let tp := tp.Add (-pitch) 0
  tp

/-- Function `PlasticButtressThread` of `screw.go`; `Polygon2D` and the arc of the freeze
are parameters. -/
def PlasticButtressThread (arc : List (PolygonVertex F) → Nat → List (V2 F))
    (Polygon2D : List (V2 F) → SDF2 F) (radius pitch : F) : SDF2 F :=
  Polygon2D ((PlasticButtressThread.polygon radius pitch).Vertices arc)

/-- The builder state of `KnurlProfile` in `shapes3.go` after its five `Add` calls. -/
def KnurlProfile.polygon (radius pitch height : F) : Polygon F :=
  let knurl := NewPolygon
  let knurl := knurl.Add (pitch / 2) 0
  let knurl := knurl.Add (pitch / 2) radius
  let knurl := knurl.Add 0 (radius + height)
  let knurl := knurl.Add (-pitch / 2) radius
  let knurl := knurl.Add (-pitch / 2) 0
  knurl

end Threads

section ThreadDatabase

variable {F : Type} [LinearOrderedField F]

/-- Struct `ThreadParameters` of `screw.go`. -/
structure ThreadParameters (F : Type) where
  /-- name of screw thread -/
  Name : String
  /-- nominal major radius of screw -/
  Radius : F
  /-- thread to thread distance of screw -/
  Pitch : F
  /-- hex head flat to flat distance -/
  Hex_Flat2Flat : F
  /-- "inch" or "mm" -/
  Units : String

/-- Type `ThreadDatabase` of `screw.go`, the Go map `map[string]*ThreadParameters`: a
finite map from names to records, held as an association list without repeated keys. -/
structure ThreadDatabase (F : Type) where
  /-- the entries of the map -/
  entries : AList (fun _ : String => ThreadParameters F)

/-- The Go expression `make(ThreadDatabase)`: the empty map. -/
def ThreadDatabase.make : ThreadDatabase F := ⟨∅⟩

/-- The Go index expression `m[name]` with its `ok` flag: the record stored under `name`,
if there is one. -/
def ThreadDatabase.get (m : ThreadDatabase F) (name : String) : Option (ThreadParameters F) :=
  m.entries.lookup name

/-- Method `ThreadDatabase.UTSAdd` of `screw.go`: adds a Unified Thread Standard thread;
the assignment `m[name] = &t` replaces an entry already stored under `name`. -/
def ThreadDatabase.UTSAdd (m : ThreadDatabase F) (name : String) (diameter tpi hex_f2f : F) :
    ThreadDatabase F :=
  let t : ThreadParameters F :=
    { Name := name
      Radius := diameter / 2.0
      Pitch := 1.0 / tpi
      Hex_Flat2Flat := hex_f2f
      Units := "inch" }
  ⟨m.entries.insert name t⟩

/-- Method `ThreadDatabase.ISOAdd` of `screw.go`: adds an ISO thread; the assignment
`m[name] = &t` replaces an entry already stored under `name`. -/
def ThreadDatabase.ISOAdd (m : ThreadDatabase F) (name : String) (diameter pitch hex_f2f : F) :
    ThreadDatabase F :=
  let t : ThreadParameters F :=
    { Name := name
      Radius := diameter / 2.0
      Pitch := pitch
      Hex_Flat2Flat := hex_f2f
      Units := "mm" }
  ⟨m.entries.insert name t⟩

/-- Function `Init_ThreadLookup` of `screw.go`: the 20 UTS and 42 ISO entries in the order
of the source. -/
def Init_ThreadLookup (F : Type) [LinearOrderedField F] : ThreadDatabase F :=
  let m : ThreadDatabase F := ThreadDatabase.make
  let m := m.UTSAdd "unc_1/4" (1.0 / 4.0) 20 (7.0 / 16.0)
  let m := m.UTSAdd "unc_5/16" (5.0 / 16.0) 18 (1.0 / 2.0)
  let m := m.UTSAdd "unc_3/8" (3.0 / 8.0) 16 (9.0 / 16.0)
  let m := m.UTSAdd "unc_7/16" (7.0 / 16.0) 14 (5.0 / 8.0)
  let m := m.UTSAdd "unc_1/2" (1.0 / 2.0) 13 (3.0 / 4.0)
  let m := m.UTSAdd "unc_9/16" (9.0 / 16.0) 12 (13.0 / 16.0)
  let m := m.UTSAdd "unc_5/8" (5.0 / 8.0) 11 (15.0 / 16.0)
  let m := m.UTSAdd "unc_3/4" (3.0 / 4.0) 10 (9.0 / 8.0)
  let m := m.UTSAdd "unc_7/8" (7.0 / 8.0) 9 (21.0 / 16.0)
  let m := m.UTSAdd "unc_1" 1.0 8 (3.0 / 2.0)
  let m := m.UTSAdd "unf_1/4" (1.0 / 4.0) 28 (7.0 / 16.0)
  let m := m.UTSAdd "unf_5/16" (5.0 / 16.0) 24 (1.0 / 2.0)
  let m := m.UTSAdd "unf_3/8" (3.0 / 8.0) 24 (9.0 / 16.0)
  let m := m.UTSAdd "unf_7/16" (7.0 / 16.0) 20 (5.0 / 8.0)
  let m := m.UTSAdd "unf_1/2" (1.0 / 2.0) 20 (3.0 / 4.0)
  let m := m.UTSAdd "unf_9/16" (9.0 / 16.0) 18 (13.0 / 16.0)
  let m := m.UTSAdd "unf_5/8" (5.0 / 8.0) 18 (15.0 / 16.0)
  let m := m.UTSAdd "unf_3/4" (3.0 / 4.0) 16 (9.0 / 8.0)
  let m := m.UTSAdd "unf_7/8" (7.0 / 8.0) 14 (21.0 / 16.0)
  let m := m.UTSAdd "unf_1" 1.0 12 (3.0 / 2.0)
  let m := m.ISOAdd "M1x0.25" 1 0.25 (-1)
  let m := m.ISOAdd "M1.2x0.25" 1.2 0.25 (-1)
  let m := m.ISOAdd "M1.6x0.35" 1.6 0.35 3.2
  let m := m.ISOAdd "M2x0.4" 2 0.4 4
  let m := m.ISOAdd "M2.5x0.45" 2.5 0.45 5
  let m := m.ISOAdd "M3x0.5" 3 0.5 6
  let m := m.ISOAdd "M4x0.7" 4 0.7 7
  let m := m.ISOAdd "M5x0.8" 5 0.8 8
  let m := m.ISOAdd "M6x1" 6 1 10
  let m := m.ISOAdd "M8x1.25" 8 1.25 13
  let m := m.ISOAdd "M10x1.5" 10 1.5 17
  let m := m.ISOAdd "M12x1.75" 12 1.75 19
  let m := m.ISOAdd "M16x2" 16 2 24
  let m := m.ISOAdd "M20x2.5" 20 2.5 30
  let m := m.ISOAdd "M24x3" 24 3 36
  let m := m.ISOAdd "M30x3.5" 30 3.5 46
  let m := m.ISOAdd "M36x4" 36 4 55
  let m := m.ISOAdd "M42x4.5" 42 4.5 65
  let m := m.ISOAdd "M48x5" 48 5 75
  let m := m.ISOAdd "M56x5.5" 56 5.5 85
  let m := m.ISOAdd "M64x6" 64 6 95
  let m := m.ISOAdd "M1x0.2" 1 0.2 (-1)
  let m := m.ISOAdd "M1.2x0.2" 1.2 0.2 (-1)
  let m := m.ISOAdd "M1.6x0.2" 1.6 0.2 3.2
  let m := m.ISOAdd "M2x0.25" 2 0.25 4
  let m := m.ISOAdd "M2.5x0.35" 2.5 0.35 5
  let m := m.ISOAdd "M3x0.35" 3 0.35 6
  let m := m.ISOAdd "M4x0.5" 4 0.5 7
  let m := m.ISOAdd "M5x0.5" 5 0.5 8
  let m := m.ISOAdd "M6x0.75" 6 0.75 10
  let m := m.ISOAdd "M8x1" 8 1 13
  let m := m.ISOAdd "M10x1.25" 10 1.25 17
  let m := m.ISOAdd "M12x1.5" 12 1.5 19
  let m := m.ISOAdd "M16x1.5" 16 1.5 24
  let m := m.ISOAdd "M20x2" 20 2 30
  let m := m.ISOAdd "M24x2" 24 2 36
  let m := m.ISOAdd "M30x2" 30 2 46
  let m := m.ISOAdd "M36x3" 36 3 55
  let m := m.ISOAdd "M42x3" 42 3 65
  let m := m.ISOAdd "M48x3" 48 3 75
  let m := m.ISOAdd "M56x4" 56 4 85
  let m := m.ISOAdd "M64x4" 64 4 95
  m

/-- The package variable `thread_db` of `screw.go`. -/
def thread_db (F : Type) [LinearOrderedField F] : ThreadDatabase F := Init_ThreadLookup F

/-- Function `ThreadLookup` of `screw.go`, with a panic as `Except.error` carrying the
panic message. -/
def ThreadLookup (F : Type) [LinearOrderedField F] (name : String) :
    Except String (ThreadParameters F) :=
  match (thread_db F).get name with
  | some t => Except.ok t
  | none => Except.error "thread name not found"

end ThreadDatabase

/-! ## Theorems -/

/-! ### The sawtooth fold -/

/-- Shifting the argument by a whole number of periods leaves the sawtooth fold
unchanged. -/
theorem SawTooth_add_int_mul {F : Type} [LinearOrderedField F] [FloorRing F]
    (x period : F) (k : Int) (hp : period ≠ 0) :
    SawTooth (x + (k : F) * period) period = SawTooth x period := by
  unfold SawTooth
  have h : (x + (k : F) * period + period / 2) / period
      = (x + period / 2) / period + (k : F) := by
    field_simp
    ring
  rw [h, Int.fract_add_int]

/-- The sawtooth fold takes its values in `[-period/2, period/2)`. -/
theorem SawTooth_mem_Ico {F : Type} [LinearOrderedField F] [FloorRing F]
    (x period : F) (hp : 0 < period) :
    -(period / 2) ≤ SawTooth x period ∧ SawTooth x period < period / 2 := by
  unfold SawTooth
  have h0 := Int.fract_nonneg ((x + period / 2) / period)
  have h1 := Int.fract_lt_one ((x + period / 2) / period)
  constructor
  · nlinarith [mul_nonneg hp.le h0]
  · nlinarith [mul_lt_mul_of_pos_left h1 hp]

/-! ### Screws -/

/-- The method `Evaluate` reads the thread profile at `profilePoint` and caps the result
with the half-length term. -/
theorem ScrewSDF3.Evaluate_eq_max {F : Type} [LinearOrderedField F] [FloorRing F] [GoMath F]
    (s : ScrewSDF3 F) (p : V3 F) :
    s.Evaluate p = max (s.thread.Evaluate (s.profilePoint p)) (|p.Z| - s.length) :=
  rfl

/-- C1: for every screw built by `Screw3D` and every point `(x, y, z)`, `Evaluate` is
`max(d0, d1)` where `d0` is the thread profile evaluated at
`(SawTooth(z + lead * atan2(y, x) / (2π), pitch), sqrt(x² + y²))` with
`lead = -pitch * starts`, and `d1 = |z| - length / 2`. -/
theorem screw_evaluate_eq {F : Type} [LinearOrderedField F] [FloorRing F] [GoMath F]
    (thread : SDF2 F) (length pitch : F) (starts : Int) (x y z : F) :
    (Screw3D thread length pitch starts).Evaluate ⟨x, y, z⟩ =
      max
        (thread.Evaluate
          ⟨SawTooth (z + (-pitch * (starts : F)) * GoMath.Atan2 y x / (2 * GoMath.Pi)) pitch,
            GoMath.Sqrt (x ^ 2 + y ^ 2)⟩)
        (|z| - length / 2) := by
  simp only [ScrewSDF3.Evaluate, Screw3D, TAU, Abs, Max, pow_two]

/-- C3: the bounding box of `Screw3D(thread, length, pitch, starts)` has
`Min = (-r, -r, -length/2)` and `Max = (r, r, length/2)` with `r` the `Max.Y` of the
thread profile box; it is the same box for every pitch and every start count. -/
theorem screw_boundingBox_eq {F : Type} [LinearOrderedField F]
    (thread : SDF2 F) (length pitch : F) (starts : Int) :
    (Screw3D thread length pitch starts).BoundingBox =
        ⟨⟨-thread.BoundingBox.Max.Y, -thread.BoundingBox.Max.Y, -(length / 2)⟩,
          ⟨thread.BoundingBox.Max.Y, thread.BoundingBox.Max.Y, length / 2⟩⟩ ∧
      ∀ (pitch2 : F) (starts2 : Int),
        (Screw3D thread length pitch2 starts2).BoundingBox =
          (Screw3D thread length pitch starts).BoundingBox := by
  refine ⟨rfl, fun _ _ => rfl⟩

/-- C2: the bounding box of a screw is conservative.  When the thread profile is
conservatively bounded in `y` (a negative profile distance at `q` implies
`q.Y ≤ thread.BoundingBox().Max.Y`), every point with a negative screw distance lies
inside the screw box, component by component. -/
theorem screw_boundingBox_conservative (thread : SDF2 ℝ) (length pitch : ℝ) (starts : Int)
    (hthread : ∀ q : V2 ℝ, thread.Evaluate q < 0 → q.Y ≤ thread.BoundingBox.Max.Y)
    (p : V3 ℝ) (hp : (Screw3D thread length pitch starts).Evaluate p < 0) :
    ((Screw3D thread length pitch starts).BoundingBox.Min.X ≤ p.X ∧
        p.X ≤ (Screw3D thread length pitch starts).BoundingBox.Max.X) ∧
      ((Screw3D thread length pitch starts).BoundingBox.Min.Y ≤ p.Y ∧
        p.Y ≤ (Screw3D thread length pitch starts).BoundingBox.Max.Y) ∧
      ((Screw3D thread length pitch starts).BoundingBox.Min.Z ≤ p.Z ∧
        p.Z ≤ (Screw3D thread length pitch starts).BoundingBox.Max.Z) := by
  rw [ScrewSDF3.Evaluate_eq_max, max_lt_iff] at hp
  obtain ⟨hd0, hd1⟩ := hp
  have hr := hthread _ hd0
  have hx : |p.X| ≤ Real.sqrt (p.X * p.X + p.Y * p.Y) :=
    Real.abs_le_sqrt (by nlinarith [mul_self_nonneg p.Y])
  have hy : |p.Y| ≤ Real.sqrt (p.X * p.X + p.Y * p.Y) :=
    Real.abs_le_sqrt (by nlinarith [mul_self_nonneg p.X])
  have hx2 := abs_le.mp (hx.trans hr)
  have hy2 := abs_le.mp (hy.trans hr)
  have hz2 := abs_lt.mp (sub_neg.mp hd1)
  exact ⟨⟨hx2.1, hx2.2⟩, ⟨hy2.1, hy2.2⟩, ⟨hz2.1.le, hz2.2.le⟩⟩

/-- Witness of C2: the rod profile of radius 3 is bounded by its box, the point
`(1, 0, 0)` is inside the screw of length 2 cut from it, and it lies in the box. -/
theorem screw_boundingBox_conservative_witness :
    (∀ q : V2 ℝ, (rodProfile (3 : ℝ)).Evaluate q < 0 →
        q.Y ≤ (rodProfile (3 : ℝ)).BoundingBox.Max.Y) ∧
      (Screw3D (rodProfile (3 : ℝ)) 2 1 1).Evaluate ⟨1, 0, 0⟩ < 0 ∧
      (((Screw3D (rodProfile (3 : ℝ)) 2 1 1).BoundingBox.Min.X ≤ 1 ∧
          1 ≤ (Screw3D (rodProfile (3 : ℝ)) 2 1 1).BoundingBox.Max.X) ∧
        ((Screw3D (rodProfile (3 : ℝ)) 2 1 1).BoundingBox.Min.Y ≤ 0 ∧
          0 ≤ (Screw3D (rodProfile (3 : ℝ)) 2 1 1).BoundingBox.Max.Y) ∧
        ((Screw3D (rodProfile (3 : ℝ)) 2 1 1).BoundingBox.Min.Z ≤ 0 ∧
          0 ≤ (Screw3D (rodProfile (3 : ℝ)) 2 1 1).BoundingBox.Max.Z)) := by
  have h1 : ∀ q : V2 ℝ, (rodProfile (3 : ℝ)).Evaluate q < 0 →
      q.Y ≤ (rodProfile (3 : ℝ)).BoundingBox.Max.Y := by
    intro q hq
    simp only [rodProfile] at hq ⊢
    linarith
  have h2 : (Screw3D (rodProfile (3 : ℝ)) 2 1 1).Evaluate ⟨1, 0, 0⟩ < 0 := by
    rw [ScrewSDF3.Evaluate_eq_max]
    simp [ScrewSDF3.profilePoint, Screw3D, rodProfile, GoMath.Sqrt]
  exact ⟨h1, h2, screw_boundingBox_conservative (rodProfile 3) 2 1 1 h1 ⟨1, 0, 0⟩ h2⟩

/-- The thread-profile point of a screw is unchanged when `z` moves by the lead: the
lead is a whole number of pitches, which the sawtooth fold absorbs. -/
theorem screw_profilePoint_add_lead {F : Type} [LinearOrderedField F] [FloorRing F] [GoMath F]
    (thread : SDF2 F) (length pitch : F) (starts : Int) (hp : pitch ≠ 0) (x y z : F) :
    (Screw3D thread length pitch starts).profilePoint
        ⟨x, y, z + (Screw3D thread length pitch starts).lead⟩ =
      (Screw3D thread length pitch starts).profilePoint ⟨x, y, z⟩ := by
  simp only [ScrewSDF3.profilePoint, Screw3D]
  have h : z + -pitch * (starts : F) + -pitch * (starts : F) * GoMath.Atan2 y x / TAU
      = (z + -pitch * (starts : F) * GoMath.Atan2 y x / TAU) + ((-starts : Int) : F) * pitch := by
    push_cast
    ring
  rw [h, SawTooth_add_int_mul _ _ _ hp]

/-- C4 (as stated, refuted): on the screw of length 2 and pitch 1 with one start cut from
the rod profile of radius 3, the points `(cos 0, sin 0, 1)` and `(cos 0, sin 0, 1 + lead)`
both lie within the length, yet `Evaluate` is `0` at the first and `-1` at the second:
the end-cap term `|z| - length/2` is not periodic. -/
theorem screw_periodicity_counterexample :
    (0 : ℝ) < 1 ∧ (0 : ℝ) ≤ 1 ∧ |(1 : ℝ)| ≤ 2 / 2 ∧
      |(1 : ℝ) + (Screw3D (rodProfile (3 : ℝ)) 2 1 1).lead| ≤ 2 / 2 ∧
      (Screw3D (rodProfile (3 : ℝ)) 2 1 1).Evaluate
          ⟨1 * Real.cos 0, 1 * Real.sin 0, 1⟩ = 0 ∧
      (Screw3D (rodProfile (3 : ℝ)) 2 1 1).Evaluate
          ⟨1 * Real.cos 0, 1 * Real.sin 0, 1 + (Screw3D (rodProfile (3 : ℝ)) 2 1 1).lead⟩
        = -1 := by
  have hl : (Screw3D (rodProfile (3 : ℝ)) 2 1 1).lead = -1 := by simp [Screw3D]
  refine ⟨by norm_num, by norm_num, by norm_num, by rw [hl]; norm_num, ?_, ?_⟩
  · rw [ScrewSDF3.Evaluate_eq_max]
    simp [ScrewSDF3.profilePoint, Screw3D, rodProfile, GoMath.Sqrt]
  · rw [hl, ScrewSDF3.Evaluate_eq_max]
    simp [ScrewSDF3.profilePoint, Screw3D, rodProfile, GoMath.Sqrt]
    norm_num

/-- C4 (amended): for a screw of pitch `P > 0` built with `starts = 1`, the points
`(x, y, z)` and `(x, y, z + lead)` map to the same thread-profile point, so they have the
same profile distance `d0`; and `Evaluate` agrees at the two points whenever `d0` is at
least both end-cap terms `|z| - length/2` and `|z + lead| - length/2`. -/
theorem screw_periodicity_amended {F : Type} [LinearOrderedField F] [FloorRing F] [GoMath F]
    (thread : SDF2 F) (length pitch x y z : F) (hp : 0 < pitch)
    (h1 : |z| - length / 2 ≤
      thread.Evaluate ((Screw3D thread length pitch 1).profilePoint ⟨x, y, z⟩))
    (h2 : |z + (Screw3D thread length pitch 1).lead| - length / 2 ≤
      thread.Evaluate ((Screw3D thread length pitch 1).profilePoint ⟨x, y, z⟩)) :
    (Screw3D thread length pitch 1).profilePoint
          ⟨x, y, z + (Screw3D thread length pitch 1).lead⟩ =
        (Screw3D thread length pitch 1).profilePoint ⟨x, y, z⟩ ∧
      (Screw3D thread length pitch 1).Evaluate ⟨x, y, z⟩ =
        (Screw3D thread length pitch 1).Evaluate
          ⟨x, y, z + (Screw3D thread length pitch 1).lead⟩ := by
  have hpt := screw_profilePoint_add_lead thread length pitch 1 hp.ne' x y z
  refine ⟨hpt, ?_⟩
  rw [ScrewSDF3.Evaluate_eq_max, ScrewSDF3.Evaluate_eq_max, hpt]
  have hlen : (Screw3D thread length pitch 1).length = length / 2 := rfl
  have hth : (Screw3D thread length pitch 1).thread = thread := rfl
  simp only [hlen, hth]
  rw [max_eq_left h1, max_eq_left h2]

/-- Witness of C4 (amended): on the screw of length 2 and pitch 1 cut from the rod
profile of radius 3, the surface points `(3, 0, 1)` and `(3, 0, 1 + lead)` have the
same distance. -/
theorem screw_periodicity_amended_witness :
    (0 : ℝ) < 1 ∧
      (Screw3D (rodProfile (3 : ℝ)) 2 1 1).profilePoint
          ⟨3, 0, 1 + (Screw3D (rodProfile (3 : ℝ)) 2 1 1).lead⟩ =
        (Screw3D (rodProfile (3 : ℝ)) 2 1 1).profilePoint ⟨3, 0, 1⟩ ∧
      (Screw3D (rodProfile (3 : ℝ)) 2 1 1).Evaluate ⟨3, 0, 1⟩ =
        (Screw3D (rodProfile (3 : ℝ)) 2 1 1).Evaluate
          ⟨3, 0, 1 + (Screw3D (rodProfile (3 : ℝ)) 2 1 1).lead⟩ := by
  have hs : Real.sqrt (3 * 3) = 3 := Real.sqrt_mul_self (by norm_num)
  refine ⟨by norm_num, screw_periodicity_amended (rodProfile 3) 2 1 3 0 1 (by norm_num) ?_ ?_⟩
  · simp [ScrewSDF3.profilePoint, Screw3D, rodProfile, GoMath.Sqrt, hs]
  · simp [ScrewSDF3.profilePoint, Screw3D, rodProfile, GoMath.Sqrt, hs]

/-- The sawtooth fold is the identity on `[-period/2, period/2)`. -/
theorem SawTooth_of_mem {F : Type} [LinearOrderedField F] [FloorRing F]
    (x period : F) (hp : 0 < period) (hlo : -(period / 2) ≤ x) (hhi : x < period / 2) :
    SawTooth x period = x := by
  unfold SawTooth
  have h : Int.fract ((x + period / 2) / period) = (x + period / 2) / period := by
    rw [Int.fract_eq_self]
    constructor
    · exact div_nonneg (by linarith) hp.le
    · rw [div_lt_one hp]
      linarith
  rw [h]
  field_simp
  ring

/-- Over the reals the sawtooth fold is continuous at every point where it does not take
its least value `-period/2`, that is, away from the points where it jumps. -/
theorem SawTooth_continuousAt (x period : ℝ)
    (h : SawTooth x period ≠ -(period / 2)) :
    ContinuousAt (fun u : ℝ => SawTooth u period) x := by
  have ht : (x + period / 2) / period ≠ ((⌊(x + period / 2) / period⌋ : Int) : ℝ) := by
    intro he
    apply h
    have hfr : Int.fract ((x + period / 2) / period) = 0 := sub_eq_zero.mpr he
    simp [SawTooth, hfr]
  have hf : ContinuousAt Int.fract ((x + period / 2) / period) := continuousAt_fract ht
  have hg : ContinuousAt (fun u : ℝ => (u + period / 2) / period) x :=
    (by fun_prop : Continuous (fun u : ℝ => (u + period / 2) / period)).continuousAt
  have hfg : ContinuousAt (fun u : ℝ => Int.fract ((u + period / 2) / period)) x := by
    have hcomp := hf.tendsto.comp hg.tendsto
    exact hcomp
  exact (continuousAt_const.mul hfg).sub continuousAt_const

/-- Over the reals the angle `atan2(r sin θ, r cos θ)` of a point at distance `r > 0` from
the axis is `θ` itself for `-π < θ ≤ π`. -/
theorem atan2_polar (r theta : ℝ) (hr : 0 < r)
    (h : theta ∈ Set.Ioc (-Real.pi) Real.pi) :
    (GoMath.Atan2 (r * Real.sin theta) (r * Real.cos theta) : ℝ) = theta := by
  have hz : (⟨r * Real.cos theta, r * Real.sin theta⟩ : ℂ) =
      (r : ℂ) * (Complex.cos theta + Complex.sin theta * Complex.I) := by
    apply Complex.ext <;> simp [← Complex.ofReal_cos, ← Complex.ofReal_sin]
  show Complex.arg ⟨r * Real.cos theta, r * Real.sin theta⟩ = theta
  rw [hz]
  exact Complex.arg_mul_cos_add_sin_mul_I hr h

/-- Over the reals the point `(r cos θ, r sin θ)` lies at distance `r` from the axis. -/
theorem sqrt_polar (r theta : ℝ) (hr : 0 < r) :
    (GoMath.Sqrt (r * Real.cos theta * (r * Real.cos theta)
      + r * Real.sin theta * (r * Real.sin theta)) : ℝ) = r := by
  have h : r * Real.cos theta * (r * Real.cos theta)
      + r * Real.sin theta * (r * Real.sin theta) = r * r := by
    have hcs := Real.cos_sq_add_sin_sq theta
    calc r * Real.cos theta * (r * Real.cos theta)
          + r * Real.sin theta * (r * Real.sin theta)
        = r * r * (Real.cos theta ^ 2 + Real.sin theta ^ 2) := by ring
      _ = r * r := by rw [hcs, mul_one]
  show Real.sqrt _ = r
  rw [h]
  exact Real.sqrt_mul_self hr.le

/-- The thread-profile point of the point `(r cos θ, r sin θ, z)`, `r > 0`,
`-π < θ ≤ π`: the fold of `z + lead*θ/(2π)` and the radius `r`. -/
theorem screw_profilePoint_polar (thread : SDF2 ℝ) (length pitch : ℝ) (starts : Int)
    (r z theta : ℝ) (hr : 0 < r) (h : theta ∈ Set.Ioc (-Real.pi) Real.pi) :
    (Screw3D thread length pitch starts).profilePoint
        ⟨r * Real.cos theta, r * Real.sin theta, z⟩ =
      ⟨SawTooth (z + (Screw3D thread length pitch starts).lead * theta / (2 * Real.pi)) pitch,
        r⟩ := by
  have ha := atan2_polar r theta hr h
  have hs := sqrt_polar r theta hr
  simp only [ScrewSDF3.profilePoint, ha, hs, TAU, GoMath.Pi]
  rfl

/-- Counterexample to C5: the screw of pitch 1 with one start, at radius `r = 1` and
height `z = 0`.  At `θ = π` the mapped profile coordinate is
`SawTooth(0 + lead*π/(2π), 1) = SawTooth(-1/2, 1) = -1/2`, while for `θ` tending to `-π`
(from above, the only side `atan2` has) the mapped coordinate `-θ/(2π)` tends to `+1/2`:
the fold jumps by one pitch across the seam, and the mapped coordinate does not tend to
its value at `θ = π`. -/
theorem screw_wrap_counterexample :
    ((Screw3D (rodProfile (3 : ℝ)) 2 1 1).profilePoint
        ⟨1 * Real.cos Real.pi, 1 * Real.sin Real.pi, 0⟩).X = -(1 / 2) ∧
      Filter.Tendsto
        (fun theta : ℝ => ((Screw3D (rodProfile (3 : ℝ)) 2 1 1).profilePoint
          ⟨1 * Real.cos theta, 1 * Real.sin theta, 0⟩).X)
        (nhdsWithin (-Real.pi) (Set.Ioi (-Real.pi))) (nhds (1 / 2)) ∧
      ¬ Filter.Tendsto
        (fun theta : ℝ => ((Screw3D (rodProfile (3 : ℝ)) 2 1 1).profilePoint
          ⟨1 * Real.cos theta, 1 * Real.sin theta, 0⟩).X)
        (nhdsWithin (-Real.pi) (Set.Ioi (-Real.pi)))
        (nhds ((Screw3D (rodProfile (3 : ℝ)) 2 1 1).profilePoint
          ⟨1 * Real.cos Real.pi, 1 * Real.sin Real.pi, 0⟩).X) := by
  have hpi := Real.pi_pos
  have h2pi : (0 : ℝ) < 2 * Real.pi := by positivity
  have hhalf : Real.pi / (2 * Real.pi) = 1 / 2 := by
    field_simp
    ring
  have hval : ∀ theta ∈ Set.Ioc (-Real.pi) Real.pi,
      ((Screw3D (rodProfile (3 : ℝ)) 2 1 1).profilePoint
        ⟨1 * Real.cos theta, 1 * Real.sin theta, 0⟩).X = -(theta / (2 * Real.pi)) := by
    intro theta hth
    rw [screw_profilePoint_polar _ _ _ _ _ _ _ one_pos hth]
    have hl : (Screw3D (rodProfile (3 : ℝ)) 2 1 1).lead = -1 := by
      simp [Screw3D]
    have he : (0 : ℝ) + (Screw3D (rodProfile (3 : ℝ)) 2 1 1).lead * theta / (2 * Real.pi)
        = -(theta / (2 * Real.pi)) := by
      rw [hl]
      ring
    show SawTooth _ 1 = _
    rw [he]
    have h1 : theta / (2 * Real.pi) ≤ Real.pi / (2 * Real.pi) :=
      div_le_div_of_nonneg_right hth.2 h2pi.le
    have h2 : -Real.pi / (2 * Real.pi) < theta / (2 * Real.pi) :=
      div_lt_div_of_pos_right hth.1 h2pi
    rw [neg_div, hhalf] at h2
    rw [hhalf] at h1
    exact SawTooth_of_mem _ _ one_pos (by linarith) (by linarith)
  have hmem : Set.Ioc (-Real.pi) Real.pi ∈ nhdsWithin (-Real.pi) (Set.Ioi (-Real.pi)) :=
    Ioc_mem_nhdsWithin_Ioi ⟨le_refl _, by linarith⟩
  have hpiIoc : Real.pi ∈ Set.Ioc (-Real.pi) Real.pi := ⟨by linarith, le_refl _⟩
  have hlin : Filter.Tendsto (fun theta : ℝ => -(theta / (2 * Real.pi)))
      (nhdsWithin (-Real.pi) (Set.Ioi (-Real.pi))) (nhds (1 / 2)) := by
    have hc : Continuous (fun theta : ℝ => -(theta / (2 * Real.pi))) := by fun_prop
    have ht := (hc.tendsto (-Real.pi)).mono_left
      (nhdsWithin_le_nhds : nhdsWithin (-Real.pi) (Set.Ioi (-Real.pi)) ≤ nhds (-Real.pi))
    have hv : -(-Real.pi / (2 * Real.pi)) = 1 / 2 := by
      rw [neg_div, hhalf, neg_neg]
    rw [hv] at ht
    exact ht
  have hlim := hlin.congr' (Filter.eventuallyEq_of_mem hmem (fun theta hth => (hval theta hth).symm))
  have hat : ((Screw3D (rodProfile (3 : ℝ)) 2 1 1).profilePoint
      ⟨1 * Real.cos Real.pi, 1 * Real.sin Real.pi, 0⟩).X = -(1 / 2) := by
    rw [hval Real.pi hpiIoc, hhalf]
  refine ⟨hat, hlim, fun hbad => ?_⟩
  rw [hat] at hbad
  have := tendsto_nhds_unique hlim hbad
  norm_num at this

/-- C5 (amended): for every screw with pitch `> 0` and any integer start count, the
sawtooth fold takes the same value on the two branches of the angle at the wrap point,
`SawTooth(z + lead*π/(2π), pitch) = SawTooth(z + lead*(-π)/(2π), pitch)` for every `z`;
for `r > 0` the value of `Evaluate` at `θ = π`, the point `(r cos π, r sin π, z)`, is the
profile distance at that folded coordinate, capped by the half-length term; the radial
profile coordinate of `(r cos θ, r sin θ, z)` is `r` for every `θ`.  Where the fold at the
wrap point is not at its jump, `SawTooth(z + lead*(-π)/(2π), pitch) ≠ -pitch/2`, the
mapped profile coordinate of `(r cos θ, r sin θ, z)` tends, as `θ` tends to `-π` from
above, to the mapped coordinate at `θ = π`; and if moreover the thread profile is
continuous in its first coordinate at that profile point, `Evaluate` at
`(r cos θ, r sin θ, z)` tends to `Evaluate` at `θ = π`: no seam discontinuity. -/
theorem screw_wrap_continuity (thread : SDF2 ℝ) (length pitch : ℝ) (starts : Int)
    (hp : 0 < pitch) (z r : ℝ) (hr : 0 < r) :
    SawTooth (z + (Screw3D thread length pitch starts).lead * Real.pi / (2 * Real.pi)) pitch =
        SawTooth (z + (Screw3D thread length pitch starts).lead * (-Real.pi) / (2 * Real.pi))
          pitch ∧
      (Screw3D thread length pitch starts).Evaluate
          ⟨r * Real.cos Real.pi, r * Real.sin Real.pi, z⟩ =
        max
          (thread.Evaluate
            ⟨SawTooth
              (z + (Screw3D thread length pitch starts).lead * (-Real.pi) / (2 * Real.pi))
              pitch, r⟩)
          (|z| - length / 2) ∧
      (∀ theta : ℝ,
        ((Screw3D thread length pitch starts).profilePoint
          ⟨r * Real.cos theta, r * Real.sin theta, z⟩).Y = r) ∧
      (SawTooth (z + (Screw3D thread length pitch starts).lead * (-Real.pi) / (2 * Real.pi))
          pitch ≠ -(pitch / 2) →
        Filter.Tendsto
          (fun theta : ℝ => ((Screw3D thread length pitch starts).profilePoint
            ⟨r * Real.cos theta, r * Real.sin theta, z⟩).X)
          (nhdsWithin (-Real.pi) (Set.Ioi (-Real.pi)))
          (nhds ((Screw3D thread length pitch starts).profilePoint
            ⟨r * Real.cos Real.pi, r * Real.sin Real.pi, z⟩).X)) ∧
      (SawTooth (z + (Screw3D thread length pitch starts).lead * (-Real.pi) / (2 * Real.pi))
          pitch ≠ -(pitch / 2) →
        ContinuousAt (fun u : ℝ => thread.Evaluate ⟨u, r⟩)
          ((Screw3D thread length pitch starts).profilePoint
            ⟨r * Real.cos Real.pi, r * Real.sin Real.pi, z⟩).X →
        Filter.Tendsto
          (fun theta : ℝ => (Screw3D thread length pitch starts).Evaluate
            ⟨r * Real.cos theta, r * Real.sin theta, z⟩)
          (nhdsWithin (-Real.pi) (Set.Ioi (-Real.pi)))
          (nhds ((Screw3D thread length pitch starts).Evaluate
            ⟨r * Real.cos Real.pi, r * Real.sin Real.pi, z⟩))) := by
  have hpi := Real.pi_pos
  have hlead : (Screw3D thread length pitch starts).lead = -pitch * (starts : ℝ) := rfl
  have hsaw : SawTooth (z + (Screw3D thread length pitch starts).lead * Real.pi / (2 * Real.pi))
        pitch =
      SawTooth (z + (Screw3D thread length pitch starts).lead * (-Real.pi) / (2 * Real.pi))
        pitch := by
    have h : z + (Screw3D thread length pitch starts).lead * Real.pi / (2 * Real.pi)
        = (z + (Screw3D thread length pitch starts).lead * (-Real.pi) / (2 * Real.pi))
          + ((-starts : Int) : ℝ) * pitch := by
      rw [hlead]
      push_cast
      field_simp
      ring
    rw [h, SawTooth_add_int_mul _ _ _ hp.ne']
  have hmem : Set.Ioc (-Real.pi) Real.pi ∈ nhdsWithin (-Real.pi) (Set.Ioi (-Real.pi)) :=
    Ioc_mem_nhdsWithin_Ioi ⟨le_refl _, by linarith⟩
  have hpiIoc : Real.pi ∈ Set.Ioc (-Real.pi) Real.pi := ⟨by linarith, le_refl _⟩
  have hX : ∀ theta ∈ Set.Ioc (-Real.pi) Real.pi,
      ((Screw3D thread length pitch starts).profilePoint
        ⟨r * Real.cos theta, r * Real.sin theta, z⟩).X =
      SawTooth (z + (Screw3D thread length pitch starts).lead * theta / (2 * Real.pi))
        pitch := by
    intro theta hth
    rw [screw_profilePoint_polar _ _ _ _ _ _ _ hr hth]
  have hY : ∀ theta : ℝ,
      ((Screw3D thread length pitch starts).profilePoint
        ⟨r * Real.cos theta, r * Real.sin theta, z⟩).Y = r :=
    fun theta => sqrt_polar r theta hr
  have hE : ∀ theta : ℝ,
      (Screw3D thread length pitch starts).Evaluate
          ⟨r * Real.cos theta, r * Real.sin theta, z⟩ =
        max
          (thread.Evaluate
            ⟨((Screw3D thread length pitch starts).profilePoint
              ⟨r * Real.cos theta, r * Real.sin theta, z⟩).X, r⟩)
          (|z| - length / 2) := by
    intro theta
    rw [ScrewSDF3.Evaluate_eq_max]
    show max (thread.Evaluate
        ⟨((Screw3D thread length pitch starts).profilePoint
            ⟨r * Real.cos theta, r * Real.sin theta, z⟩).X,
          ((Screw3D thread length pitch starts).profilePoint
            ⟨r * Real.cos theta, r * Real.sin theta, z⟩).Y⟩) (|z| - length / 2) = _
    rw [hY theta]
  have hlimX : SawTooth
        (z + (Screw3D thread length pitch starts).lead * (-Real.pi) / (2 * Real.pi))
        pitch ≠ -(pitch / 2) →
      Filter.Tendsto
        (fun theta : ℝ => ((Screw3D thread length pitch starts).profilePoint
          ⟨r * Real.cos theta, r * Real.sin theta, z⟩).X)
        (nhdsWithin (-Real.pi) (Set.Ioi (-Real.pi)))
        (nhds ((Screw3D thread length pitch starts).profilePoint
          ⟨r * Real.cos Real.pi, r * Real.sin Real.pi, z⟩).X) := by
    intro hj
    have hc1 : ContinuousAt (fun u : ℝ => SawTooth u pitch)
        (z + (Screw3D thread length pitch starts).lead * (-Real.pi) / (2 * Real.pi)) :=
      SawTooth_continuousAt _ _ hj
    have hc2 : ContinuousAt (fun theta : ℝ =>
        z + (Screw3D thread length pitch starts).lead * theta / (2 * Real.pi)) (-Real.pi) :=
      (by fun_prop : Continuous (fun theta : ℝ =>
        z + (Screw3D thread length pitch starts).lead * theta / (2 * Real.pi))).continuousAt
    have hc : ContinuousAt (fun theta : ℝ =>
        SawTooth (z + (Screw3D thread length pitch starts).lead * theta / (2 * Real.pi))
          pitch) (-Real.pi) := by
      have hcomp := hc1.tendsto.comp hc2.tendsto
      exact hcomp
    have ht := hc.tendsto.mono_left
      (nhdsWithin_le_nhds : nhdsWithin (-Real.pi) (Set.Ioi (-Real.pi)) ≤ nhds (-Real.pi))
    rw [hX Real.pi hpiIoc, hsaw]
    exact ht.congr'
      (Filter.eventuallyEq_of_mem hmem (fun theta hth => (hX theta hth).symm))
  refine ⟨hsaw, ?_, hY, hlimX, fun hj hcP => ?_⟩
  · rw [hE Real.pi, hX Real.pi hpiIoc, hsaw]
  · have h3 := hlimX hj
    have h4 : Filter.Tendsto
        (fun theta : ℝ => thread.Evaluate
          ⟨((Screw3D thread length pitch starts).profilePoint
            ⟨r * Real.cos theta, r * Real.sin theta, z⟩).X, r⟩)
        (nhdsWithin (-Real.pi) (Set.Ioi (-Real.pi)))
        (nhds (thread.Evaluate
          ⟨((Screw3D thread length pitch starts).profilePoint
            ⟨r * Real.cos Real.pi, r * Real.sin Real.pi, z⟩).X, r⟩)) := by
      have hcomp := hcP.tendsto.comp h3
      exact hcomp
    have h5 := h4.max (tendsto_const_nhds (x := |z| - length / 2))
    rw [hE Real.pi]
    exact h5.congr (fun theta => (hE theta).symm)

/-- Witness of C5 (amended): the screw of length 2, pitch 1 and one start cut from the rod
profile of radius 3, at radius `r = 1` and height `z = 1/4`, where the fold at the wrap
point is `SawTooth(3/4, 1) = -1/4`, away from its jump. -/
theorem screw_wrap_continuity_witness :
    (0 : ℝ) < 1 ∧
      SawTooth ((1 / 4 : ℝ) + (Screw3D (rodProfile (3 : ℝ)) 2 1 1).lead * (-Real.pi)
        / (2 * Real.pi)) 1 = -(1 / 4) ∧
      Filter.Tendsto
        (fun theta : ℝ => ((Screw3D (rodProfile (3 : ℝ)) 2 1 1).profilePoint
          ⟨1 * Real.cos theta, 1 * Real.sin theta, 1 / 4⟩).X)
        (nhdsWithin (-Real.pi) (Set.Ioi (-Real.pi)))
        (nhds ((Screw3D (rodProfile (3 : ℝ)) 2 1 1).profilePoint
          ⟨1 * Real.cos Real.pi, 1 * Real.sin Real.pi, 1 / 4⟩).X) ∧
      Filter.Tendsto
        (fun theta : ℝ => (Screw3D (rodProfile (3 : ℝ)) 2 1 1).Evaluate
          ⟨1 * Real.cos theta, 1 * Real.sin theta, 1 / 4⟩)
        (nhdsWithin (-Real.pi) (Set.Ioi (-Real.pi)))
        (nhds ((Screw3D (rodProfile (3 : ℝ)) 2 1 1).Evaluate
          ⟨1 * Real.cos Real.pi, 1 * Real.sin Real.pi, 1 / 4⟩)) := by
  have hfold : SawTooth ((1 / 4 : ℝ) + (Screw3D (rodProfile (3 : ℝ)) 2 1 1).lead * (-Real.pi)
      / (2 * Real.pi)) 1 = -(1 / 4) := by
    have hl : (Screw3D (rodProfile (3 : ℝ)) 2 1 1).lead = -1 := by
      simp [Screw3D]
    have he : (1 / 4 : ℝ) + (Screw3D (rodProfile (3 : ℝ)) 2 1 1).lead * (-Real.pi)
        / (2 * Real.pi) = -(1 / 4) + ((1 : Int) : ℝ) * 1 := by
      rw [hl]
      have hpi : Real.pi ≠ 0 := Real.pi_ne_zero
      field_simp
      ring
    rw [he, SawTooth_add_int_mul _ _ _ one_ne_zero]
    exact SawTooth_of_mem _ _ one_pos (by norm_num) (by norm_num)
  have hj : SawTooth ((1 / 4 : ℝ) + (Screw3D (rodProfile (3 : ℝ)) 2 1 1).lead * (-Real.pi)
      / (2 * Real.pi)) 1 ≠ -(1 / 2) := by
    rw [hfold]
    norm_num
  have h := screw_wrap_continuity (rodProfile 3) 2 1 1 one_pos (1 / 4) 1 one_pos
  exact ⟨one_pos, hfold, h.2.2.2.1 hj, h.2.2.2.2 hj continuousAt_const⟩

/-! ### Knurls -/

/-- Over the reals, turning a point other than the origin by 180 degrees about the axis
moves its angle `atan2(y, x)` by `π` or by `-π`. -/
theorem atan2_neg_neg (x y : ℝ) (h : x ≠ 0 ∨ y ≠ 0) :
    (GoMath.Atan2 (-y) (-x) : ℝ) = GoMath.Atan2 y x + Real.pi ∨
      (GoMath.Atan2 (-y) (-x) : ℝ) = GoMath.Atan2 y x - Real.pi := by
  show Complex.arg ⟨-x, -y⟩ = Complex.arg ⟨x, y⟩ + Real.pi ∨
    Complex.arg ⟨-x, -y⟩ = Complex.arg ⟨x, y⟩ - Real.pi
  have hneg : (⟨-x, -y⟩ : ℂ) = -(⟨x, y⟩ : ℂ) := by
    apply Complex.ext <;> simp
  rw [hneg]
  rcases lt_trichotomy y 0 with hy | hy | hy
  · left
    exact Complex.arg_neg_eq_arg_add_pi_iff.mpr (Or.inl hy)
  · have hx : x ≠ 0 := by
      rcases h with h | h
      · exact h
      · exact absurd hy h
    rcases lt_or_gt_of_ne hx with hx | hx
    · right
      exact Complex.arg_neg_eq_arg_sub_pi_iff.mpr (Or.inr ⟨hy, hx⟩)
    · left
      exact Complex.arg_neg_eq_arg_add_pi_iff.mpr (Or.inr ⟨hy, hx⟩)
  · right
    exact Complex.arg_neg_eq_arg_sub_pi_iff.mpr (Or.inl hy)

/-- Over the reals, reflecting a point other than the origin in the plane `x = 0` sends
its angle `θ = atan2(y, x)` to `π - θ` or to `-π - θ`. -/
theorem atan2_neg_x (x y : ℝ) (h : x ≠ 0 ∨ y ≠ 0) :
    (GoMath.Atan2 y (-x) : ℝ) = Real.pi - GoMath.Atan2 y x ∨
      (GoMath.Atan2 y (-x) : ℝ) = -Real.pi - GoMath.Atan2 y x := by
  show Complex.arg ⟨-x, y⟩ = Real.pi - Complex.arg ⟨x, y⟩ ∨
    Complex.arg ⟨-x, y⟩ = -Real.pi - Complex.arg ⟨x, y⟩
  have hneg : (⟨-x, y⟩ : ℂ) = -((starRingEnd ℂ) (⟨x, y⟩ : ℂ)) := by
    apply Complex.ext <;> simp
  rcases lt_trichotomy y 0 with hy | hy | hy
  · right
    have hne : Complex.arg ⟨x, y⟩ ≠ Real.pi := by
      intro hpi
      have := (Complex.arg_eq_pi_iff.mp hpi).2
      simp at this
      exact hy.ne this
    have h1 : Complex.arg ((starRingEnd ℂ) (⟨x, y⟩ : ℂ)) = -Complex.arg ⟨x, y⟩ := by
      rw [Complex.arg_conj, if_neg hne]
    have h2 : Complex.arg (-((starRingEnd ℂ) (⟨x, y⟩ : ℂ)))
        = Complex.arg ((starRingEnd ℂ) (⟨x, y⟩ : ℂ)) - Real.pi :=
      Complex.arg_neg_eq_arg_sub_pi_iff.mpr (Or.inl (by simpa using hy))
    rw [hneg, h2, h1]
    ring
  · have hx : x ≠ 0 := by
      rcases h with h | h
      · exact h
      · exact absurd hy h
    left
    subst hy
    rcases lt_or_gt_of_ne hx with hx | hx
    · have h1 : Complex.arg ⟨x, 0⟩ = Real.pi := Complex.arg_eq_pi_iff.mpr ⟨hx, rfl⟩
      have h2 : Complex.arg ⟨-x, 0⟩ = 0 :=
        Complex.arg_eq_zero_iff.mpr ⟨by simpa using hx.le, rfl⟩
      rw [h1, h2]
      ring
    · have h1 : Complex.arg ⟨x, 0⟩ = 0 := Complex.arg_eq_zero_iff.mpr ⟨hx.le, rfl⟩
      have h2 : Complex.arg ⟨-x, 0⟩ = Real.pi :=
        Complex.arg_eq_pi_iff.mpr ⟨by simpa using hx, rfl⟩
      rw [h1, h2]
      ring
  · left
    have hne : Complex.arg ⟨x, y⟩ ≠ Real.pi := by
      intro hpi
      have := (Complex.arg_eq_pi_iff.mp hpi).2
      simp at this
      exact hy.ne' this
    have h1 : Complex.arg ((starRingEnd ℂ) (⟨x, y⟩ : ℂ)) = -Complex.arg ⟨x, y⟩ := by
      rw [Complex.arg_conj, if_neg hne]
    have h2 : Complex.arg (-((starRingEnd ℂ) (⟨x, y⟩ : ℂ)))
        = Complex.arg ((starRingEnd ℂ) (⟨x, y⟩ : ℂ)) + Real.pi :=
      Complex.arg_neg_eq_arg_add_pi_iff.mpr (Or.inl (by simpa using hy))
    rw [hneg, h2, h1]
    ring

/-- A screw with an even start count is invariant under the half turn
`(x, y, z) ↦ (-x, -y, z)`: the half turn moves the unwrapped axial coordinate by half a
lead, a whole number of pitches. -/
theorem screw_evaluate_half_turn (thread : SDF2 ℝ) (length pitch : ℝ) (a : Int)
    (hp : pitch ≠ 0) (ha : Even a) (x y z : ℝ) :
    (Screw3D thread length pitch a).Evaluate ⟨-x, -y, z⟩ =
      (Screw3D thread length pitch a).Evaluate ⟨x, y, z⟩ := by
  by_cases h0 : x = 0 ∧ y = 0
  · obtain ⟨hx, hy⟩ := h0
    subst hx hy
    simp
  · have hne : x ≠ 0 ∨ y ≠ 0 := by
      by_contra hcon
      push_neg at hcon
      exact h0 hcon
    obtain ⟨m, hm⟩ := ha
    have hpi : Real.pi ≠ 0 := Real.pi_ne_zero
    have hpt : (Screw3D thread length pitch a).profilePoint ⟨-x, -y, z⟩ =
        (Screw3D thread length pitch a).profilePoint ⟨x, y, z⟩ := by
      simp only [ScrewSDF3.profilePoint, Screw3D, TAU]
      have hs : (-x) * (-x) + (-y) * (-y) = x * x + y * y := by ring
      rw [hs]
      congr 1
      rcases atan2_neg_neg x y hne with ht | ht
      · have h : z + -pitch * (a : ℝ) * GoMath.Atan2 (-y) (-x) / (2 * GoMath.Pi)
            = (z + -pitch * (a : ℝ) * GoMath.Atan2 y x / (2 * GoMath.Pi))
              + ((-m : Int) : ℝ) * pitch := by
          rw [ht, hm]
          show _ + _ / (2 * Real.pi) = _ + _ / (2 * Real.pi) + _
          push_cast
          field_simp
          ring
        rw [h, SawTooth_add_int_mul _ _ _ hp]
      · have h : z + -pitch * (a : ℝ) * GoMath.Atan2 (-y) (-x) / (2 * GoMath.Pi)
            = (z + -pitch * (a : ℝ) * GoMath.Atan2 y x / (2 * GoMath.Pi))
              + ((m : Int) : ℝ) * pitch := by
          rw [ht, hm]
          show _ + _ / (2 * Real.pi) = _ + _ / (2 * Real.pi) + _
          push_cast
          field_simp
          ring
        rw [h, SawTooth_add_int_mul _ _ _ hp]
    rw [ScrewSDF3.Evaluate_eq_max, ScrewSDF3.Evaluate_eq_max, hpt]

/-- Reflecting the point in the plane `x = 0` turns a screw with an even start count `a`
into the screw of the opposite hand, start count `-a`. -/
theorem screw_evaluate_reflect (thread : SDF2 ℝ) (length pitch : ℝ) (a : Int)
    (hp : pitch ≠ 0) (ha : Even a) (x y z : ℝ) :
    (Screw3D thread length pitch a).Evaluate ⟨-x, y, z⟩ =
      (Screw3D thread length pitch (-a)).Evaluate ⟨x, y, z⟩ := by
  by_cases h0 : x = 0 ∧ y = 0
  · obtain ⟨hx, hy⟩ := h0
    subst hx hy
    have hz : (⟨0, 0⟩ : ℂ) = 0 := rfl
    simp [ScrewSDF3.Evaluate_eq_max, ScrewSDF3.profilePoint, Screw3D, GoMath.Atan2, hz]
  · have hne : x ≠ 0 ∨ y ≠ 0 := by
      by_contra hcon
      push_neg at hcon
      exact h0 hcon
    obtain ⟨m, hm⟩ := ha
    have hpi : Real.pi ≠ 0 := Real.pi_ne_zero
    have hpt : (Screw3D thread length pitch a).profilePoint ⟨-x, y, z⟩ =
        (Screw3D thread length pitch (-a)).profilePoint ⟨x, y, z⟩ := by
      simp only [ScrewSDF3.profilePoint, Screw3D, TAU]
      have hs : (-x) * (-x) + y * y = x * x + y * y := by ring
      rw [hs]
      congr 1
      rcases atan2_neg_x x y hne with ht | ht
      · have h : z + -pitch * (a : ℝ) * GoMath.Atan2 y (-x) / (2 * GoMath.Pi)
            = (z + -pitch * ((-a : Int) : ℝ) * GoMath.Atan2 y x / (2 * GoMath.Pi))
              + ((-m : Int) : ℝ) * pitch := by
          rw [ht, hm]
          show _ + _ / (2 * Real.pi) = _ + _ / (2 * Real.pi) + _
          push_cast
          field_simp
          ring
        rw [h, SawTooth_add_int_mul _ _ _ hp]
      · have h : z + -pitch * (a : ℝ) * GoMath.Atan2 y (-x) / (2 * GoMath.Pi)
            = (z + -pitch * ((-a : Int) : ℝ) * GoMath.Atan2 y x / (2 * GoMath.Pi))
              + ((m : Int) : ℝ) * pitch := by
          rw [ht, hm]
          show _ + _ / (2 * Real.pi) = _ + _ / (2 * Real.pi) + _
          push_cast
          field_simp
          ring
        rw [h, SawTooth_add_int_mul _ _ _ hp]
    rw [ScrewSDF3.Evaluate_eq_max, ScrewSDF3.Evaluate_eq_max, hpt]
    rfl

/-- C6: knurl symmetry.  For the intersection of `Screw3D(profile, length, pitch, n)` and
`Screw3D(profile, length, pitch, -n)` with `pitch > 0` and `n` even, the field takes the
same value at `(-x, -y, z)` and at `(-x, y, z)` as at `(x, y, z)`. -/
theorem knurl_symmetry (profile : SDF2 ℝ) (length pitch : ℝ) (n : Int)
    (hp : 0 < pitch) (hn : Even n) (x y z : ℝ) :
    (Intersect3D (Screw3D profile length pitch n).toSDF3
          (Screw3D profile length pitch (-n)).toSDF3).Evaluate ⟨-x, -y, z⟩ =
        (Intersect3D (Screw3D profile length pitch n).toSDF3
          (Screw3D profile length pitch (-n)).toSDF3).Evaluate ⟨x, y, z⟩ ∧
      (Intersect3D (Screw3D profile length pitch n).toSDF3
          (Screw3D profile length pitch (-n)).toSDF3).Evaluate ⟨-x, y, z⟩ =
        (Intersect3D (Screw3D profile length pitch n).toSDF3
          (Screw3D profile length pitch (-n)).toSDF3).Evaluate ⟨x, y, z⟩ := by
  have hn2 : Even (-n) := hn.neg
  simp only [Intersect3D, ScrewSDF3.toSDF3]
  constructor
  · rw [screw_evaluate_half_turn profile length pitch n hp.ne' hn,
      screw_evaluate_half_turn profile length pitch (-n) hp.ne' hn2]
  · rw [screw_evaluate_reflect profile length pitch n hp.ne' hn,
      screw_evaluate_reflect profile length pitch (-n) hp.ne' hn2, neg_neg, max_comm]

/-- Witness of C6: the knurl of length 2 and pitch 1 with `n = 4` starts cut from the rod
profile of radius 3, at the point `(1, 2, 0)`. -/
theorem knurl_symmetry_witness :
    (0 : ℝ) < 1 ∧ Even (4 : Int) ∧
      ((Intersect3D (Screw3D (rodProfile (3 : ℝ)) 2 1 4).toSDF3
            (Screw3D (rodProfile (3 : ℝ)) 2 1 (-4)).toSDF3).Evaluate ⟨-1, -2, 0⟩ =
          (Intersect3D (Screw3D (rodProfile (3 : ℝ)) 2 1 4).toSDF3
            (Screw3D (rodProfile (3 : ℝ)) 2 1 (-4)).toSDF3).Evaluate ⟨1, 2, 0⟩ ∧
        (Intersect3D (Screw3D (rodProfile (3 : ℝ)) 2 1 4).toSDF3
            (Screw3D (rodProfile (3 : ℝ)) 2 1 (-4)).toSDF3).Evaluate ⟨-1, 2, 0⟩ =
          (Intersect3D (Screw3D (rodProfile (3 : ℝ)) 2 1 4).toSDF3
            (Screw3D (rodProfile (3 : ℝ)) 2 1 (-4)).toSDF3).Evaluate ⟨1, 2, 0⟩) :=
  ⟨by norm_num, by decide, knurl_symmetry (rodProfile 3) 2 1 4 (by norm_num) (by decide) 1 2 0⟩

/-- Inside the open range `(-2^63, 2^63)` the conversion `int(x)` is the truncation of `x`
towards zero, an `int` other than `MinInt64`. -/
theorem GoInt_of_range {F : Type} [LinearOrderedField F] [FloorRing F]
    (x : F) (hlo : -(2 : F) ^ 63 < x) (hhi : x < (2 : F) ^ 63) :
    ∃ n : Int, GoInt x = some n ∧ n ≠ MinInt64 ∧ (0 ≤ x → n = ⌊x⌋) ∧ (x < 0 → n = ⌈x⌉) := by
  by_cases h0 : 0 ≤ x
  · have h1 : (0 : Int) ≤ ⌊x⌋ := Int.floor_nonneg.mpr h0
    have h2 : ⌊x⌋ < 2 ^ 63 := by
      rw [Int.floor_lt]
      push_cast
      norm_num at hhi ⊢
      exact hhi
    refine ⟨⌊x⌋, ?_, ?_, fun _ => rfl, fun h => absurd h0 (not_le.mpr h)⟩
    · have hr : MinInt64 ≤ ⌊x⌋ ∧ ⌊x⌋ ≤ MaxInt64 := by
        simp only [MinInt64, MaxInt64]
        constructor <;> omega
      simp only [GoInt, if_pos h0, if_pos hr]
    · simp only [MinInt64]
      omega
  · have hx : x < 0 := not_le.mp h0
    have h1 : ⌈x⌉ ≤ 0 := Int.ceil_le.mpr (by exact_mod_cast hx.le)
    have h2 : -(2 : Int) ^ 63 < ⌈x⌉ := by
      rw [Int.lt_ceil]
      push_cast
      norm_num at hlo ⊢
      exact hlo
    refine ⟨⌈x⌉, ?_, ?_, fun h => absurd h h0, fun _ => rfl⟩
    · have hr : MinInt64 ≤ ⌈x⌉ ∧ ⌈x⌉ ≤ MaxInt64 := by
        simp only [MinInt64, MaxInt64]
        constructor <;> omega
      simp only [GoInt, if_neg h0, if_pos hr]
    · simp only [MinInt64]
      omega

/-- C7 (as stated, refuted): for radius 1, pitch 1 and helix angle `-π/4` the quotient
`2π * radius * tan(θ) / pitch` is `-2π`; `Knurl3D` uses the start count `-6`, while the
floor of the quotient is `-7`. -/
theorem knurl_starts_counterexample :
    Knurl3D.starts (1 : ℝ) 1 (-(Real.pi / 4)) = some (-6) ∧
      ⌊(2 * Real.pi * 1 * Real.tan (-(Real.pi / 4)) / 1 : ℝ)⌋ = -7 := by
  have h3 := Real.pi_gt_three
  have h4 := Real.pi_lt_d2
  have ht : Real.tan (-(Real.pi / 4)) = -1 := by
    rw [Real.tan_neg, Real.tan_pi_div_four]
  constructor
  · have hneg : ¬ (0 : ℝ) ≤ 2 * Real.pi * 1 * -1 / 1 := by
      intro h
      linarith
    have hceil : ⌈(2 * Real.pi * 1 * -1 / 1 : ℝ)⌉ = -6 := by
      rw [Int.ceil_eq_iff]
      constructor
      · push_cast
        linarith
      · push_cast
        linarith
    have hr : MinInt64 ≤ (-6 : Int) ∧ (-6 : Int) ≤ MaxInt64 := by
      simp only [MinInt64, MaxInt64]
      constructor <;> norm_num
    simp only [Knurl3D.starts, GoQuo, GoInt, TAU, GoMath.Tan, GoMath.Pi, ht, if_neg hneg,
      one_ne_zero, if_false, hceil, if_pos hr]
  · rw [ht, Int.floor_eq_iff]
    constructor
    · push_cast
      linarith
    · push_cast
      linarith

/-- C7 (amended): for every pitch other than `0` and every quotient
`q = 2π * radius * tan(theta) / pitch` strictly between `-2^63` and `2^63`,
`Knurl3D(length, radius, pitch, height, theta)` is the intersection of
`Screw3D(k, length, pitch, n)` and `Screw3D(k, length, pitch, -n)` with the same profile
`k = KnurlProfile(radius, pitch, height)`, where the start count `n` is `q` truncated
towards zero: its floor when `q` is not negative, its ceiling when `q` is negative. -/
theorem knurl3D_eq {F : Type} [LinearOrderedField F] [FloorRing F] [GoMath F]
    (Polygon2D : List (V2 F) → SDF2 F) (length radius pitch height theta : F)
    (hp : pitch ≠ 0)
    (hlo : -(2 : F) ^ 63 < TAU * radius * GoMath.Tan theta / pitch)
    (hhi : TAU * radius * GoMath.Tan theta / pitch < (2 : F) ^ 63) :
    ∃ n : Int,
      Knurl3D.starts radius pitch theta = some n ∧
        Knurl3D Polygon2D length radius pitch height theta =
          some (Intersect3D
            (Screw3D (KnurlProfile Polygon2D radius pitch height) length pitch n).toSDF3
            (Screw3D (KnurlProfile Polygon2D radius pitch height) length pitch (-n)).toSDF3) ∧
        (0 ≤ TAU * radius * GoMath.Tan theta / pitch →
          n = ⌊TAU * radius * GoMath.Tan theta / pitch⌋) ∧
        (TAU * radius * GoMath.Tan theta / pitch < 0 →
          n = ⌈TAU * radius * GoMath.Tan theta / pitch⌉) := by
  obtain ⟨n, hn, hmin, hfloor, hceil⟩ := GoInt_of_range _ hlo hhi
  have hstarts : Knurl3D.starts radius pitch theta = some n := by
    simp only [Knurl3D.starts, GoQuo, if_neg hp, hn]
  refine ⟨n, hstarts, ?_, hfloor, hceil⟩
  simp only [Knurl3D, hstarts, GoNeg, if_neg hmin]

/-- Witness of C7 (amended): for radius 1, pitch 1 and helix angle `π/4` the quotient is
`2π`, inside the range and not negative, and the start count is its floor. -/
theorem knurl3D_eq_witness :
    (1 : ℝ) ≠ 0 ∧ -(2 : ℝ) ^ 63 < TAU * 1 * GoMath.Tan (Real.pi / 4) / 1 ∧
      TAU * 1 * GoMath.Tan (Real.pi / 4) / 1 < (2 : ℝ) ^ 63 ∧
      ∃ n : Int, Knurl3D.starts (1 : ℝ) 1 (Real.pi / 4) = some n ∧
        n = ⌊(TAU * 1 * GoMath.Tan (Real.pi / 4) / 1 : ℝ)⌋ := by
  have hq : (TAU * 1 * GoMath.Tan (Real.pi / 4) / 1 : ℝ) = 2 * Real.pi := by
    simp only [TAU, GoMath.Tan, GoMath.Pi, Real.tan_pi_div_four]
    ring
  have h3 := Real.pi_gt_three
  have h4 := Real.pi_lt_d2
  have hlo : -(2 : ℝ) ^ 63 < TAU * 1 * GoMath.Tan (Real.pi / 4) / 1 := by
    rw [hq]
    have : (0 : ℝ) < 2 ^ 63 := by positivity
    linarith
  have hhi : TAU * 1 * GoMath.Tan (Real.pi / 4) / 1 < (2 : ℝ) ^ 63 := by
    rw [hq]
    have : (7 : ℝ) < 2 ^ 63 := by norm_num
    linarith
  obtain ⟨n, hn, _, hfl, _⟩ :=
    knurl3D_eq (fun _ => rodProfile (3 : ℝ)) 2 1 1 1 (Real.pi / 4) one_ne_zero hlo hhi
  exact ⟨one_ne_zero, hlo, hhi, n, hn, hfl (by rw [hq]; linarith)⟩

/-! ### The stored lead and the construction of a screw -/

/-- C8 (the code at the failing input): `Screw3D` with pitch 1 stores the lead `-1` for
one right-hand start and the lead `1` for one left-hand start (`starts = -1`), the
opposite of `pitch * starts`. -/
theorem screw_lead_sign :
    (Screw3D (rodProfile (3 : ℚ)) 20 1 1).lead = -1 ∧
      (Screw3D (rodProfile (3 : ℚ)) 20 1 (-1)).lead = 1 ∧
      ∀ (thread : SDF2 ℚ) (length pitch : ℚ) (starts : Int),
        (Screw3D thread length pitch starts).lead = -(pitch * (starts : ℚ)) := by
  refine ⟨by norm_num [Screw3D], by norm_num [Screw3D], fun _ _ _ _ => ?_⟩
  simp [Screw3D]

/-- C9 (as stated, refuted): with pitch `0` and with pitch `-1` the call of `Screw3D`
does not end in an error. -/
theorem screw3D_no_error_counterexample :
    (0 : ℚ) ≤ 0 ∧ (-1 : ℚ) ≤ 0 ∧
      (¬ ∃ e, Screw3D.call (rodProfile (3 : ℚ)) 20 0 1 = Except.error e) ∧
      (¬ ∃ e, Screw3D.call (rodProfile (3 : ℚ)) 20 (-1) 1 = Except.error e) := by
  refine ⟨le_refl 0, by norm_num, ?_, ?_⟩
  · rintro ⟨e, he⟩
    simp [Screw3D.call] at he
  · rintro ⟨e, he⟩
    simp [Screw3D.call] at he

/-- C9 (amended): `Screw3D` does not validate its arguments.  For every thread profile,
length, pitch (also `pitch ≤ 0`) and start count the call returns a screw, which stores
the pitch unchanged, the lead `-pitch * starts` and the half-length `length / 2`. -/
theorem screw3D_total {F : Type} [LinearOrderedField F]
    (thread : SDF2 F) (length pitch : F) (starts : Int) :
    Screw3D.call thread length pitch starts = Except.ok (Screw3D thread length pitch starts) ∧
      (Screw3D thread length pitch starts).pitch = pitch ∧
      (Screw3D thread length pitch starts).lead = -pitch * (starts : F) ∧
      (Screw3D thread length pitch starts).length = length / 2 :=
  ⟨rfl, rfl, rfl, rfl⟩

/-! ### Washers -/

/-- C10: `Washer3D(t, r_inner, r_outer)` panics if and only if `t ≤ 0` or
`r_inner ≥ r_outer`; for every other input it returns
`Difference3D(Cylinder3D(t, r_outer, 0), Cylinder3D(t, r_inner, 0))`. -/
theorem washer3D_spec {F : Type} [LinearOrderedField F]
    (Cylinder3D : F → F → F → SDF3 F) (t r_inner r_outer : F) :
    ((∃ e, Washer3D Cylinder3D t r_inner r_outer = Except.error e) ↔
        (t ≤ 0 ∨ r_inner ≥ r_outer)) ∧
      (¬ (t ≤ 0 ∨ r_inner ≥ r_outer) →
        Washer3D Cylinder3D t r_inner r_outer =
          Except.ok (Difference3D (Cylinder3D t r_outer 0) (Cylinder3D t r_inner 0))) := by
  unfold Washer3D
  by_cases ht : t ≤ 0
  · simp [ht]
  · by_cases hr : r_inner ≥ r_outer
    · simp [ht, hr]
    · simp [ht, hr]

/-- Witness of C10: the washer of thickness 2, inner radius 3 and outer radius 6 is the
difference of the two cylinders. -/
theorem washer3D_spec_witness :
    ¬ ((2 : ℝ) ≤ 0 ∨ (3 : ℝ) ≥ 6) ∧
      Washer3D plainCylinder3D (2 : ℝ) 3 6 =
        Except.ok (Difference3D (plainCylinder3D 2 6 0) (plainCylinder3D 2 3 0)) :=
  ⟨by norm_num, (washer3D_spec plainCylinder3D (2 : ℝ) 3 6).2 (by norm_num)⟩

/-- C11: for every valid washer `Washer3D(t, r_inner, r_outer)` (`t > 0`,
`0 < r_inner < r_outer`), built on the unrounded cylinder of the spec, and every point
`(x, y, z)` with `|z| < t/2`: the field is negative when
`r_inner < sqrt(x² + y²) < r_outer` and positive when `sqrt(x² + y²) < r_inner`.  The
bound `0 < r_inner` of a valid washer is not needed. -/
theorem washer3D_field_sign {F : Type} [LinearOrderedField F] [FloorRing F] [GoMath F]
    (t r_inner r_outer x y z : F) (ht : 0 < t) (hr : r_inner < r_outer)
    (hz : |z| < t / 2) :
    Washer3D plainCylinder3D t r_inner r_outer =
        Except.ok (Difference3D (plainCylinder3D t r_outer 0) (plainCylinder3D t r_inner 0)) ∧
      (r_inner < GoMath.Sqrt (x * x + y * y) → GoMath.Sqrt (x * x + y * y) < r_outer →
        (Difference3D (plainCylinder3D t r_outer 0) (plainCylinder3D t r_inner 0)).Evaluate
          ⟨x, y, z⟩ < 0) ∧
      (GoMath.Sqrt (x * x + y * y) < r_inner →
        0 < (Difference3D (plainCylinder3D t r_outer 0) (plainCylinder3D t r_inner 0)).Evaluate
          ⟨x, y, z⟩) := by
  refine ⟨?_, fun h1 h2 => ?_, fun h1 => ?_⟩
  · simp [Washer3D, not_le.mpr ht, not_le.mpr hr]
  · simp only [Difference3D, plainCylinder3D]
    rw [max_lt_iff]
    constructor
    · rw [max_lt_iff]
      exact ⟨by linarith, by linarith⟩
    · have : 0 < max (GoMath.Sqrt (x * x + y * y) - r_inner) (|z| - t / 2) :=
        lt_max_of_lt_left (by linarith)
      linarith
  · simp only [Difference3D, plainCylinder3D]
    have : max (GoMath.Sqrt (x * x + y * y) - r_inner) (|z| - t / 2) < 0 := by
      rw [max_lt_iff]
      exact ⟨by linarith, by linarith⟩
    exact lt_max_of_lt_right (by linarith)

/-- Witness of C11: `Washer3D(2, 3, 6)` is negative at `(4.5, 0, 0)` and positive at
`(2, 0, 0)`. -/
theorem washer3D_field_sign_witness :
    Washer3D plainCylinder3D (2 : ℝ) 3 6 =
        Except.ok (Difference3D (plainCylinder3D 2 6 0) (plainCylinder3D 2 3 0)) ∧
      (Difference3D (plainCylinder3D (2 : ℝ) 6 0) (plainCylinder3D 2 3 0)).Evaluate
          ⟨4.5, 0, 0⟩ < 0 ∧
      0 < (Difference3D (plainCylinder3D (2 : ℝ) 6 0) (plainCylinder3D 2 3 0)).Evaluate
          ⟨2, 0, 0⟩ := by
  have hs1 : (GoMath.Sqrt ((4.5 : ℝ) * 4.5 + 0 * 0) : ℝ) = 4.5 := by
    show Real.sqrt ((4.5 : ℝ) * 4.5 + 0 * 0) = 4.5
    rw [mul_zero, add_zero]
    exact Real.sqrt_mul_self (by norm_num)
  have hs2 : (GoMath.Sqrt ((2 : ℝ) * 2 + 0 * 0) : ℝ) = 2 := by
    show Real.sqrt ((2 : ℝ) * 2 + 0 * 0) = 2
    rw [mul_zero, add_zero]
    exact Real.sqrt_mul_self (by norm_num)
  have h1 := washer3D_field_sign (2 : ℝ) 3 6 4.5 0 0 (by norm_num) (by norm_num) (by norm_num)
  have h2 := washer3D_field_sign (2 : ℝ) 3 6 2 0 0 (by norm_num) (by norm_num) (by norm_num)
  refine ⟨h1.1, h1.2.1 ?_ ?_, h2.2.2 ?_⟩
  · rw [hs1]; norm_num
  · rw [hs1]; norm_num
  · rw [hs2]; norm_num

/-- C13: for every screw built by `Screw3D` and every point `(x, y, z)`,
`Evaluate ≥ |z| - length/2`; hence every point beyond the half-length
(`|z| > length/2`) evaluates strictly positive, whatever the profile. -/
theorem screw_evaluate_ge_cap {F : Type} [LinearOrderedField F] [FloorRing F] [GoMath F]
    (thread : SDF2 F) (length pitch : F) (starts : Int) (x y z : F) :
    |z| - length / 2 ≤ (Screw3D thread length pitch starts).Evaluate ⟨x, y, z⟩ ∧
      (length / 2 < |z| → 0 < (Screw3D thread length pitch starts).Evaluate ⟨x, y, z⟩) := by
  have h : |z| - length / 2 ≤ (Screw3D thread length pitch starts).Evaluate ⟨x, y, z⟩ := by
    rw [ScrewSDF3.Evaluate_eq_max]
    exact le_max_right _ _
  exact ⟨h, fun hz => lt_of_lt_of_le (by linarith) h⟩

/-- Witness of C13: on the screw of length 20 cut from the rod profile of radius 3, the
point `(0, 0, 11)` lies beyond the half-length 10 and evaluates positive. -/
theorem screw_evaluate_ge_cap_witness :
    (20 : ℝ) / 2 < |(11 : ℝ)| ∧
      0 < (Screw3D (rodProfile (3 : ℝ)) 20 1 1).Evaluate ⟨0, 0, 11⟩ := by
  have h : (20 : ℝ) / 2 < |(11 : ℝ)| := by
    rw [abs_of_pos (by norm_num : (0 : ℝ) < 11)]
    norm_num
  exact ⟨h, (screw_evaluate_ge_cap (rodProfile (3 : ℝ)) 20 1 1 0 0 11).2 h⟩

/-! ### The vector kernel -/

/-- A left fold with an operation that takes the minimum of a component stays below the
start value and below every member, and is attained at the start value or at a member. -/
theorem foldl_component_min {F V : Type} [LinearOrderedField F] (f : V → F) (op : V → V → V)
    (hop : ∀ a b, f (op a b) = min (f a) (f b)) (l : List V) (v0 : V) :
    f (l.foldl op v0) ≤ f v0 ∧ (∀ v ∈ l, f (l.foldl op v0) ≤ f v) ∧
      (f (l.foldl op v0) = f v0 ∨ ∃ v ∈ l, f (l.foldl op v0) = f v) := by
  induction l generalizing v0 with
  | nil => simp
  | cons w l ih =>
    obtain ⟨h1, h2, h3⟩ := ih (op v0 w)
    rw [hop] at h1 h3
    simp only [List.foldl_cons, List.mem_cons, forall_eq_or_imp, exists_eq_or_imp]
    refine ⟨h1.trans (min_le_left _ _), ⟨h1.trans (min_le_right _ _), h2⟩, ?_⟩
    rcases h3 with h3 | ⟨v, hv, h3⟩
    · rcases min_choice (f v0) (f w) with hm | hm
      · exact Or.inl (h3.trans hm)
      · exact Or.inr (Or.inl (h3.trans hm))
    · exact Or.inr (Or.inr ⟨v, hv, h3⟩)

/-- A left fold with an operation that takes the maximum of a component stays above the
start value and above every member, and is attained at the start value or at a member. -/
theorem foldl_component_max {F V : Type} [LinearOrderedField F] (f : V → F) (op : V → V → V)
    (hop : ∀ a b, f (op a b) = max (f a) (f b)) (l : List V) (v0 : V) :
    f v0 ≤ f (l.foldl op v0) ∧ (∀ v ∈ l, f v ≤ f (l.foldl op v0)) ∧
      (f (l.foldl op v0) = f v0 ∨ ∃ v ∈ l, f (l.foldl op v0) = f v) := by
  induction l generalizing v0 with
  | nil => simp
  | cons w l ih =>
    obtain ⟨h1, h2, h3⟩ := ih (op v0 w)
    rw [hop] at h1 h3
    simp only [List.foldl_cons, List.mem_cons, forall_eq_or_imp, exists_eq_or_imp]
    refine ⟨(le_max_left _ _).trans h1, ⟨(le_max_right _ _).trans h1, h2⟩, ?_⟩
    rcases h3 with h3 | ⟨v, hv, h3⟩
    · rcases max_choice (f v0) (f w) with hm | hm
      · exact Or.inl (h3.trans hm)
      · exact Or.inr (Or.inl (h3.trans hm))
    · exact Or.inr (Or.inr ⟨v, hv, h3⟩)

/-- The result of a minimum fold started at a member of the list is a lower bound of the
list that is attained in the list. -/
theorem foldl_component_min_of_mem {F V : Type} [LinearOrderedField F] (f : V → F)
    (op : V → V → V) (hop : ∀ a b, f (op a b) = min (f a) (f b)) (l : List V) (v0 : V)
    (h0 : v0 ∈ l) :
    (∀ v ∈ l, f (l.foldl op v0) ≤ f v) ∧ ∃ v ∈ l, f (l.foldl op v0) = f v := by
  obtain ⟨_, h2, h3⟩ := foldl_component_min f op hop l v0
  refine ⟨h2, ?_⟩
  rcases h3 with h3 | h3
  · exact ⟨v0, h0, h3⟩
  · exact h3

/-- The result of a maximum fold started at a member of the list is an upper bound of the
list that is attained in the list. -/
theorem foldl_component_max_of_mem {F V : Type} [LinearOrderedField F] (f : V → F)
    (op : V → V → V) (hop : ∀ a b, f (op a b) = max (f a) (f b)) (l : List V) (v0 : V)
    (h0 : v0 ∈ l) :
    (∀ v ∈ l, f v ≤ f (l.foldl op v0)) ∧ ∃ v ∈ l, f (l.foldl op v0) = f v := by
  obtain ⟨_, h2, h3⟩ := foldl_component_max f op hop l v0
  refine ⟨h2, ?_⟩
  rcases h3 with h3 | h3
  · exact ⟨v0, h0, h3⟩
  · exact h3

/-- C16: for every non-empty `V3Set` and every non-empty `V2Set`, `Min()` and `Max()`
return the component-wise minimum and maximum: every member lies between them component
by component, and each component of `Min()` and of `Max()` is that component of some
member. -/
theorem vset_min_max {F : Type} [LinearOrderedField F] [FloorRing F]
    (a3 : V3Set F) (a2 : V2Set F) (h3 : a3 ≠ []) (h2 : a2 ≠ []) :
    (∃ m M, V3Set.Min a3 = Except.ok m ∧ V3Set.Max a3 = Except.ok M ∧
        (∀ v ∈ a3, (m.X ≤ v.X ∧ m.Y ≤ v.Y ∧ m.Z ≤ v.Z) ∧
          (v.X ≤ M.X ∧ v.Y ≤ M.Y ∧ v.Z ≤ M.Z)) ∧
        ((∃ v ∈ a3, m.X = v.X) ∧ (∃ v ∈ a3, m.Y = v.Y) ∧ (∃ v ∈ a3, m.Z = v.Z)) ∧
        ((∃ v ∈ a3, M.X = v.X) ∧ (∃ v ∈ a3, M.Y = v.Y) ∧ (∃ v ∈ a3, M.Z = v.Z))) ∧
      (∃ m M, V2Set.Min a2 = Except.ok m ∧ V2Set.Max a2 = Except.ok M ∧
        (∀ v ∈ a2, (m.X ≤ v.X ∧ m.Y ≤ v.Y) ∧ (v.X ≤ M.X ∧ v.Y ≤ M.Y)) ∧
        ((∃ v ∈ a2, m.X = v.X) ∧ (∃ v ∈ a2, m.Y = v.Y)) ∧
        ((∃ v ∈ a2, M.X = v.X) ∧ (∃ v ∈ a2, M.Y = v.Y))) := by
  constructor
  · cases a3 with
    | nil => exact absurd rfl h3
    | cons a0 rest =>
      have hm : a0 ∈ a0 :: rest := List.mem_cons_self _ _
      have mx := foldl_component_min_of_mem (fun v : V3 F => v.X) (fun vmin v => vmin.Min v)
        (fun _ _ => rfl) (a0 :: rest) a0 hm
      have my := foldl_component_min_of_mem (fun v : V3 F => v.Y) (fun vmin v => vmin.Min v)
        (fun _ _ => rfl) (a0 :: rest) a0 hm
      have mz := foldl_component_min_of_mem (fun v : V3 F => v.Z) (fun vmin v => vmin.Min v)
        (fun _ _ => rfl) (a0 :: rest) a0 hm
      have Mx := foldl_component_max_of_mem (fun v : V3 F => v.X) (fun vmax v => vmax.Max v)
        (fun _ _ => rfl) (a0 :: rest) a0 hm
      have My := foldl_component_max_of_mem (fun v : V3 F => v.Y) (fun vmax v => vmax.Max v)
        (fun _ _ => rfl) (a0 :: rest) a0 hm
      have Mz := foldl_component_max_of_mem (fun v : V3 F => v.Z) (fun vmax v => vmax.Max v)
        (fun _ _ => rfl) (a0 :: rest) a0 hm
      exact ⟨_, _, rfl, rfl,
        fun v hv => ⟨⟨mx.1 v hv, my.1 v hv, mz.1 v hv⟩, ⟨Mx.1 v hv, My.1 v hv, Mz.1 v hv⟩⟩,
        ⟨mx.2, my.2, mz.2⟩, ⟨Mx.2, My.2, Mz.2⟩⟩
  · cases a2 with
    | nil => exact absurd rfl h2
    | cons a0 rest =>
      have hm : a0 ∈ a0 :: rest := List.mem_cons_self _ _
      have mx := foldl_component_min_of_mem (fun v : V2 F => v.X) (fun vmin v => vmin.Min v)
        (fun _ _ => rfl) (a0 :: rest) a0 hm
      have my := foldl_component_min_of_mem (fun v : V2 F => v.Y) (fun vmin v => vmin.Min v)
        (fun _ _ => rfl) (a0 :: rest) a0 hm
      have Mx := foldl_component_max_of_mem (fun v : V2 F => v.X) (fun vmax v => vmax.Max v)
        (fun _ _ => rfl) (a0 :: rest) a0 hm
      have My := foldl_component_max_of_mem (fun v : V2 F => v.Y) (fun vmax v => vmax.Max v)
        (fun _ _ => rfl) (a0 :: rest) a0 hm
      exact ⟨_, _, rfl, rfl,
        fun v hv => ⟨⟨mx.1 v hv, my.1 v hv⟩, ⟨Mx.1 v hv, My.1 v hv⟩⟩,
        ⟨mx.2, my.2⟩, ⟨Mx.2, My.2⟩⟩

/-- Witness of C16: the sets `{(1, 5, 2), (3, 0, 4)}` and `{(1, 5), (3, 0)}` over the
rationals. -/
theorem vset_min_max_witness :
    ([⟨1, 5, 2⟩, ⟨3, 0, 4⟩] : V3Set ℚ) ≠ [] ∧ ([⟨1, 5⟩, ⟨3, 0⟩] : V2Set ℚ) ≠ [] ∧
      (∃ m M, V3Set.Min ([⟨1, 5, 2⟩, ⟨3, 0, 4⟩] : V3Set ℚ) = Except.ok m ∧
        V3Set.Max ([⟨1, 5, 2⟩, ⟨3, 0, 4⟩] : V3Set ℚ) = Except.ok M ∧
        (∀ v ∈ ([⟨1, 5, 2⟩, ⟨3, 0, 4⟩] : V3Set ℚ),
          (m.X ≤ v.X ∧ m.Y ≤ v.Y ∧ m.Z ≤ v.Z) ∧ (v.X ≤ M.X ∧ v.Y ≤ M.Y ∧ v.Z ≤ M.Z)) ∧
        m.X = 1 ∧ m.Y = 0 ∧ m.Z = 2 ∧ M.X = 3 ∧ M.Y = 5 ∧ M.Z = 4) := by
  refine ⟨by simp, by simp, ?_⟩
  obtain ⟨m, M, hm, hM, hall, _, _⟩ :=
    (vset_min_max ([⟨1, 5, 2⟩, ⟨3, 0, 4⟩] : V3Set ℚ) ([⟨1, 5⟩, ⟨3, 0⟩] : V2Set ℚ)
      (by simp) (by simp)).1
  refine ⟨m, M, hm, hM, hall, ?_⟩
  have em : m = ⟨1, 0, 2⟩ := by
    have := Except.ok.inj (hm.symm.trans (rfl : V3Set.Min ([⟨1, 5, 2⟩, ⟨3, 0, 4⟩] : V3Set ℚ)
      = Except.ok (((⟨1, 5, 2⟩ : V3 ℚ).Min ⟨1, 5, 2⟩).Min ⟨3, 0, 4⟩)))
    rw [this]
    norm_num [V3.Min, sdf.Min]
  have eM : M = ⟨3, 5, 4⟩ := by
    have := Except.ok.inj (hM.symm.trans (rfl : V3Set.Max ([⟨1, 5, 2⟩, ⟨3, 0, 4⟩] : V3Set ℚ)
      = Except.ok (((⟨1, 5, 2⟩ : V3 ℚ).Max ⟨1, 5, 2⟩).Max ⟨3, 0, 4⟩)))
    rw [this]
    norm_num [V3.Max, sdf.Max]
  subst em eM
  simp

/-- C17 (as stated, refuted): on the empty set each of `V2Set.Min`, `V2Set.Max`,
`V3Set.Min` and `V3Set.Max` panics at the index expression `a[0]`. -/
theorem vset_empty_counterexample :
    V2Set.Min ([] : V2Set ℚ) = Except.error indexPanic ∧
      V2Set.Max ([] : V2Set ℚ) = Except.error indexPanic ∧
      V3Set.Min ([] : V3Set ℚ) = Except.error indexPanic ∧
      V3Set.Max ([] : V3Set ℚ) = Except.error indexPanic :=
  ⟨rfl, rfl, rfl, rfl⟩

/-- C17 (amended): for every non-empty set of vectors `V2Set.Min`, `V2Set.Max`,
`V3Set.Min` and `V3Set.Max` return a value without failing; the empty set is
outside their domain. -/
theorem vset_total_on_nonempty {F : Type} [LinearOrderedField F] [FloorRing F]
    (a3 : V3Set F) (a2 : V2Set F) (h3 : a3 ≠ []) (h2 : a2 ≠ []) :
    (∃ v, V2Set.Min a2 = Except.ok v) ∧ (∃ v, V2Set.Max a2 = Except.ok v) ∧
      (∃ v, V3Set.Min a3 = Except.ok v) ∧ (∃ v, V3Set.Max a3 = Except.ok v) := by
  cases a3 with
  | nil => exact absurd rfl h3
  | cons b0 rest3 =>
    cases a2 with
    | nil => exact absurd rfl h2
    | cons c0 rest2 => exact ⟨⟨_, rfl⟩, ⟨_, rfl⟩, ⟨_, rfl⟩, ⟨_, rfl⟩⟩

/-- Witness of C17 (amended): the one-member sets `{(1, 2, 3)}` and `{(1, 2)}`. -/
theorem vset_total_on_nonempty_witness :
    ([⟨1, 2, 3⟩] : V3Set ℚ) ≠ [] ∧ ([⟨1, 2⟩] : V2Set ℚ) ≠ [] ∧
      (∃ v, V2Set.Min ([⟨1, 2⟩] : V2Set ℚ) = Except.ok v) ∧
      (∃ v, V2Set.Max ([⟨1, 2⟩] : V2Set ℚ) = Except.ok v) ∧
      (∃ v, V3Set.Min ([⟨1, 2, 3⟩] : V3Set ℚ) = Except.ok v) ∧
      (∃ v, V3Set.Max ([⟨1, 2, 3⟩] : V3Set ℚ) = Except.ok v) :=
  ⟨by simp, by simp,
    vset_total_on_nonempty ([⟨1, 2, 3⟩] : V3Set ℚ) ([⟨1, 2⟩] : V2Set ℚ) (by simp) (by simp)⟩

/-- C20: for `a` and `b` read as closed segments `[a.X, a.Y]` and `[b.X, b.Y]` with
`a.X ≤ a.Y` and `b.X ≤ b.Y`, `a.Overlap(b)` is true exactly when the segments share a
point; `Overlap` is symmetric, and segments that touch at one endpoint overlap. -/
theorem overlap_iff {F : Type} [LinearOrderedField F]
    (a b : V2 F) (ha : a.X ≤ a.Y) (hb : b.X ≤ b.Y) :
    (a.Overlap b = true ↔ ∃ t, (a.X ≤ t ∧ t ≤ a.Y) ∧ (b.X ≤ t ∧ t ≤ b.Y)) ∧
      a.Overlap b = b.Overlap a ∧
      (a.Y = b.X → a.Overlap b = true) := by
  refine ⟨?_, ?_, ?_⟩
  · simp only [V2.Overlap, Bool.and_eq_true, decide_eq_true_eq, ge_iff_le]
    constructor
    · rintro ⟨h1, h2⟩
      exact ⟨max a.X b.X, ⟨le_max_left _ _, max_le ha h1⟩, ⟨le_max_right _ _, max_le h2 hb⟩⟩
    · rintro ⟨t, ⟨h1, h2⟩, ⟨h3, h4⟩⟩
      exact ⟨h3.trans h2, h1.trans h4⟩
  · simp only [V2.Overlap, Bool.and_comm]
  · intro h
    simp only [V2.Overlap, Bool.and_eq_true, decide_eq_true_eq, ge_iff_le]
    exact ⟨h.ge, ha.trans (h.le.trans hb)⟩

/-- Witness of C20: the segments `[0, 1]` and `[1, 2]` touch at `1` and overlap. -/
theorem overlap_iff_witness :
    (0 : ℚ) ≤ 1 ∧ (1 : ℚ) ≤ 2 ∧
      ((⟨0, 1⟩ : V2 ℚ).Overlap ⟨1, 2⟩ = true ↔
        ∃ t : ℚ, ((0 : ℚ) ≤ t ∧ t ≤ 1) ∧ ((1 : ℚ) ≤ t ∧ t ≤ 2)) ∧
      (⟨0, 1⟩ : V2 ℚ).Overlap ⟨1, 2⟩ = (⟨1, 2⟩ : V2 ℚ).Overlap ⟨0, 1⟩ ∧
      (⟨0, 1⟩ : V2 ℚ).Overlap ⟨1, 2⟩ = true := by
  have h := overlap_iff (⟨0, 1⟩ : V2 ℚ) ⟨1, 2⟩ (by norm_num) (by norm_num)
  exact ⟨by norm_num, by norm_num, h.1, h.2.1, h.2.2 rfl⟩

/-- Over the reals a 3D vector of positive length is normalised to a unit vector that
scales back to it. -/
theorem V3_normalize_of_pos (a : V3 ℝ) (h : 0 < a.Length) :
    a.Normalize.MulScalar a.Length = a ∧ a.Normalize.Length = 1 := by
  obtain ⟨x, y, z⟩ := a
  have hd : 0 < Real.sqrt (x * x + y * y + z * z) := h
  have hS : 0 < x * x + y * y + z * z := Real.sqrt_pos.mp hd
  have hdd : Real.sqrt (x * x + y * y + z * z) * Real.sqrt (x * x + y * y + z * z)
      = x * x + y * y + z * z := Real.mul_self_sqrt hS.le
  constructor
  · simp only [V3.Normalize, V3.MulScalar, V3.Length, GoMath.Sqrt]
    rw [div_mul_cancel₀ _ hd.ne', div_mul_cancel₀ _ hd.ne', div_mul_cancel₀ _ hd.ne']
  · simp only [V3.Normalize, V3.Length, GoMath.Sqrt]
    have e : x / Real.sqrt (x * x + y * y + z * z) * (x / Real.sqrt (x * x + y * y + z * z))
        + y / Real.sqrt (x * x + y * y + z * z) * (y / Real.sqrt (x * x + y * y + z * z))
        + z / Real.sqrt (x * x + y * y + z * z) * (z / Real.sqrt (x * x + y * y + z * z))
        = 1 := by
      rw [div_mul_div_comm, div_mul_div_comm, div_mul_div_comm, hdd, ← add_div, ← add_div]
      exact div_self hS.ne'
    rw [e, Real.sqrt_one]

/-- Over the reals a 2D vector of positive length is normalised to a unit vector that
scales back to it. -/
theorem V2_normalize_of_pos (a : V2 ℝ) (h : 0 < a.Length) :
    a.Normalize.MulScalar a.Length = a ∧ a.Normalize.Length = 1 := by
  obtain ⟨x, y⟩ := a
  have hd : 0 < Real.sqrt (x * x + y * y) := h
  have hS : 0 < x * x + y * y := Real.sqrt_pos.mp hd
  have hdd : Real.sqrt (x * x + y * y) * Real.sqrt (x * x + y * y) = x * x + y * y :=
    Real.mul_self_sqrt hS.le
  constructor
  · simp only [V2.Normalize, V2.MulScalar, V2.Length, GoMath.Sqrt]
    rw [div_mul_cancel₀ _ hd.ne', div_mul_cancel₀ _ hd.ne']
  · simp only [V2.Normalize, V2.Length, GoMath.Sqrt]
    have e : x / Real.sqrt (x * x + y * y) * (x / Real.sqrt (x * x + y * y))
        + y / Real.sqrt (x * x + y * y) * (y / Real.sqrt (x * x + y * y)) = 1 := by
      rw [div_mul_div_comm, div_mul_div_comm, hdd, ← add_div]
      exact div_self hS.ne'
    rw [e, Real.sqrt_one]

/-- C18: over the reals, for every 3D vector and every 2D vector of length `> 0`,
`Normalize()` has length 1 and scales back to the vector,
`a.Normalize().MulScalar(a.Length()) = a`; and a normalised vector has length 1 only
under that precondition, the one guard of the division by the length. -/
theorem normalize_spec (a3 : V3 ℝ) (a2 : V2 ℝ) (h3 : 0 < a3.Length) (h2 : 0 < a2.Length) :
    (a3.Normalize.MulScalar a3.Length = a3 ∧ a3.Normalize.Length = 1) ∧
      (a2.Normalize.MulScalar a2.Length = a2 ∧ a2.Normalize.Length = 1) ∧
      (∀ b : V3 ℝ, b.Normalize.Length = 1 → 0 < b.Length) ∧
      (∀ b : V2 ℝ, b.Normalize.Length = 1 → 0 < b.Length) := by
  refine ⟨V3_normalize_of_pos a3 h3, V2_normalize_of_pos a2 h2, fun b hb => ?_, fun b hb => ?_⟩
  · by_contra hn
    have h0 : b.Length = 0 :=
      le_antisymm (not_lt.mp hn) (Real.sqrt_nonneg _)
    simp only [V3.Normalize, V3.Length, GoMath.Sqrt] at hb h0
    rw [h0] at hb
    simp at hb
  · by_contra hn
    have h0 : b.Length = 0 :=
      le_antisymm (not_lt.mp hn) (Real.sqrt_nonneg _)
    simp only [V2.Normalize, V2.Length, GoMath.Sqrt] at hb h0
    rw [h0] at hb
    simp at hb

/-- Witness of C18: the vectors `(3, 4, 0)` and `(3, 4)` have length 5. -/
theorem normalize_spec_witness :
    (0 : ℝ) < (⟨3, 4, 0⟩ : V3 ℝ).Length ∧ (0 : ℝ) < (⟨3, 4⟩ : V2 ℝ).Length ∧
      ((⟨3, 4, 0⟩ : V3 ℝ).Normalize.MulScalar (⟨3, 4, 0⟩ : V3 ℝ).Length = ⟨3, 4, 0⟩ ∧
        (⟨3, 4, 0⟩ : V3 ℝ).Normalize.Length = 1) ∧
      ((⟨3, 4⟩ : V2 ℝ).Normalize.MulScalar (⟨3, 4⟩ : V2 ℝ).Length = ⟨3, 4⟩ ∧
        (⟨3, 4⟩ : V2 ℝ).Normalize.Length = 1) := by
  have h3 : (0 : ℝ) < (⟨3, 4, 0⟩ : V3 ℝ).Length := by
    show 0 < Real.sqrt _
    apply Real.sqrt_pos.mpr
    norm_num
  have h2 : (0 : ℝ) < (⟨3, 4⟩ : V2 ℝ).Length := by
    show 0 < Real.sqrt _
    apply Real.sqrt_pos.mpr
    norm_num
  have h := normalize_spec ⟨3, 4, 0⟩ ⟨3, 4⟩ h3 h2
  exact ⟨h3, h2, h.1, h.2.1⟩

/-! ### Polygon profiles -/

/-- The sawtooth fold of `0` is `0`: the fold is centred. -/
theorem SawTooth_zero {F : Type} [LinearOrderedField F] [FloorRing F]
    (period : F) (hp : period ≠ 0) : SawTooth 0 period = 0 := by
  unfold SawTooth
  have h : (0 + period / 2) / period = 1 / 2 := by
    field_simp
    ring
  have hf : Int.fract (1 / 2 : F) = 1 / 2 :=
    Int.fract_eq_self.mpr ⟨by norm_num, by norm_num⟩
  rw [h, hf]
  ring

/-- Two vertices that follow each other in the vertex list span an edge of the polygon. -/
theorem polygonEdges_mem_of_consecutive {F : Type} (first : V2 F) (A B : List (V2 F))
    (u v : V2 F) : (u, v) ∈ polygonEdges first (A ++ u :: v :: B) := by
  induction A with
  | nil => simp [polygonEdges]
  | cons a A ih =>
    cases hA : A ++ u :: v :: B with
    | nil => simp at hA
    | cons w rest =>
      rw [hA] at ih
      rw [List.cons_append, hA]
      simp only [polygonEdges, List.mem_cons]
      exact Or.inr ih

/-- The distance of a point to an edge segment is not negative (over the reals). -/
theorem segmentDistance_nonneg (a b p : V2 ℝ) : 0 ≤ segmentDistance a b p :=
  Real.sqrt_nonneg _

/-- A point whose distance to one edge of a polygon is `0` has polygon distance `0`,
whatever the inside test says (over the reals). -/
theorem PolygonSDF2_evaluate_on_edge (inside : List (V2 ℝ) → V2 ℝ → Bool) (v0 : V2 ℝ)
    (rest : List (V2 ℝ)) (a b p : V2 ℝ) (hmem : (a, b) ∈ polygonEdges v0 (v0 :: rest))
    (hd : segmentDistance a b p = 0) :
    (PolygonSDF2 inside (v0 :: rest)).Evaluate p = 0 := by
  have h0 : (0 : ℝ) ∈ (polygonEdges v0 (v0 :: rest)).map
      (fun e => segmentDistance e.1 e.2 p) :=
    List.mem_map.mpr ⟨(a, b), hmem, hd⟩
  have hnn : ∀ d ∈ (polygonEdges v0 (v0 :: rest)).map
      (fun e => segmentDistance e.1 e.2 p), (0 : ℝ) ≤ d := by
    intro d hdm
    obtain ⟨e, _, he⟩ := List.mem_map.mp hdm
    rw [← he]
    exact segmentDistance_nonneg _ _ _
  simp only [PolygonSDF2]
  cases hds : (polygonEdges v0 (v0 :: rest)).map (fun e => segmentDistance e.1 e.2 p) with
  | nil => rfl
  | cons d0 ds =>
    rw [hds] at h0 hnn
    have hfold := foldl_component_min (fun d : ℝ => d) min (fun _ _ => rfl) ds d0
    have hle : ds.foldl min d0 ≤ 0 := by
      rcases List.mem_cons.mp h0 with h | h
      · rw [h]
        exact hfold.1
      · exact hfold.2.1 0 h
    have hge : 0 ≤ ds.foldl min d0 := by
      rcases hfold.2.2 with h | ⟨d, hdm, h⟩
      · rw [h]
        exact hnn d0 (List.mem_cons_self _ _)
      · rw [h]
        exact hnn d (List.mem_cons_of_mem _ hdm)
    have hz : ds.foldl min d0 = 0 := le_antisymm hle hge
    simp [hz]

/-- A point whose distance to the edge between two consecutive vertices is `0` has
polygon distance `0` (over the reals). -/
theorem PolygonSDF2_evaluate_on_consecutive (inside : List (V2 ℝ) → V2 ℝ → Bool)
    (A B : List (V2 ℝ)) (u v p : V2 ℝ) (hd : segmentDistance u v p = 0) :
    (PolygonSDF2 inside (A ++ u :: v :: B)).Evaluate p = 0 := by
  cases A with
  | nil =>
    exact PolygonSDF2_evaluate_on_edge inside u (v :: B) u v p
      (polygonEdges_mem_of_consecutive u [] B u v) hd
  | cons a A =>
    exact PolygonSDF2_evaluate_on_edge inside a (A ++ u :: v :: B) u v p
      (polygonEdges_mem_of_consecutive a (a :: A) B u v) hd

/-- The freeze of a builder list goes through the list part by part. -/
theorem Polygon.freeze_append {F : Type}
    (arc : List (PolygonVertex F) → Nat → List (V2 F)) (all : List (PolygonVertex F))
    (L1 L2 : List (PolygonVertex F)) (i : Nat) :
    Polygon.freeze arc all i (L1 ++ L2) =
      Polygon.freeze arc all i L1 ++ Polygon.freeze arc all (i + L1.length) L2 := by
  induction L1 generalizing i with
  | nil => simp [Polygon.freeze]
  | cons w L1 ih =>
    have e : i + (w :: L1).length = (i + 1) + L1.length := by
      simp only [List.length_cons]
      omega
    rw [e]
    show _ ++ Polygon.freeze arc all (i + 1) (L1 ++ L2) =
      (_ ++ Polygon.freeze arc all (i + 1) L1) ++ _
    rw [ih (i + 1), List.append_assoc]

/-- A vertex added without rounding request is a vertex of the frozen polygon. -/
theorem Polygon.mem_freeze_of_plain {F : Type}
    (arc : List (PolygonVertex F) → Nat → List (V2 F)) (all l : List (PolygonVertex F))
    (i : Nat) (v : V2 F) (h : (⟨v, none⟩ : PolygonVertex F) ∈ l) :
    v ∈ Polygon.freeze arc all i l := by
  induction l generalizing i with
  | nil => simp at h
  | cons w l ih =>
    simp only [Polygon.freeze, List.mem_append]
    rcases List.mem_cons.mp h with h | h
    · left
      rw [← h]
      simp
    · exact Or.inr (ih (i + 1) h)

/-- The builder list of the external ISO profile, vertex by vertex. -/
theorem ISOThread_external_polygon {F : Type} [LinearOrderedField F] [FloorRing F] [GoMath F]
    (radius pitch : F) :
    ISOThread.polygon radius pitch "external" =
      Except.ok
        ⟨[⟨⟨pitch, 0⟩, none⟩,
          ⟨⟨pitch, radius - (7.0 / 8.0) * (pitch / (2.0 * GoMath.Tan (DtoR 30.0)))
            + pitch / (2.0 * GoMath.Tan (DtoR 30.0))⟩, none⟩,
          ⟨⟨pitch / 2.0, radius - (7.0 / 8.0) * (pitch / (2.0 * GoMath.Tan (DtoR 30.0)))⟩,
            some ((pitch / 8.0) / GoMath.Cos (DtoR 30.0), 5)⟩,
          ⟨⟨(1.0 / 16.0) * pitch, radius⟩, none⟩,
          ⟨⟨-((1.0 / 16.0) * pitch), radius⟩, none⟩,
          ⟨⟨-pitch / 2.0, radius - (7.0 / 8.0) * (pitch / (2.0 * GoMath.Tan (DtoR 30.0)))⟩,
            some ((pitch / 8.0) / GoMath.Cos (DtoR 30.0), 5)⟩,
          ⟨⟨-pitch, radius - (7.0 / 8.0) * (pitch / (2.0 * GoMath.Tan (DtoR 30.0)))
            + pitch / (2.0 * GoMath.Tan (DtoR 30.0))⟩, none⟩,
          ⟨⟨-pitch, 0⟩, none⟩]⟩ := by
  simp only [ISOThread.polygon, if_true]
  rfl

/-- The midpoint `(0, r)` of the flat crest from `(c, r)` to `(-c, r)`, `c > 0`, has
distance `0` to that edge (over the reals). -/
theorem segmentDistance_crest (c r : ℝ) (hc : 0 < c) :
    segmentDistance (⟨c, r⟩ : V2 ℝ) ⟨-c, r⟩ ⟨0, r⟩ = 0 := by
  have hl2 : (-c - c) * (-c - c) + (r - r) * (r - r) ≠ 0 := by
    have : 0 < (-c - c) * (-c - c) + (r - r) * (r - r) := by nlinarith
    exact this.ne'
  have ht : ((0 - c) * (-c - c) + (r - r) * (r - r)) /
      ((-c - c) * (-c - c) + (r - r) * (r - r)) = 1 / 2 := by
    rw [div_eq_iff hl2]
    ring
  simp only [segmentDistance, V2.Sub, V2.Length2, V2.Dot, V2.MulScalar, V2.Length,
    GoMath.Sqrt, if_neg hl2, ht]
  have hm : max (0 : ℝ) (min 1 (1 / 2)) = 1 / 2 := by
    rw [min_eq_right (by norm_num), max_eq_right (by norm_num)]
  rw [hm]
  have hz : (0 - c - (-c - c) * (1 / 2)) * (0 - c - (-c - c) * (1 / 2))
      + (r - r - (r - r) * (1 / 2)) * (r - r - (r - r) * (1 / 2)) = 0 := by ring
  rw [hz, Real.sqrt_zero]

/-- A vertex list in which `u`, `v` follow two leading vertices and a stretch `X` has the
edge `(u, v)`, and the polygon distance is `0` at every point at distance `0` to it. -/
theorem PolygonSDF2_crest_of_shape (inside : List (V2 ℝ) → V2 ℝ → Bool)
    (V : List (V2 ℝ)) (a b u v p : V2 ℝ) (X Y : List (V2 ℝ))
    (hV : V = a :: b :: (X ++ u :: v :: Y)) (hd : segmentDistance u v p = 0) :
    (u, v) ∈ polygonEdges a V ∧ (PolygonSDF2 inside V).Evaluate p = 0 := by
  subst hV
  exact ⟨polygonEdges_mem_of_consecutive a (a :: b :: X) Y u v,
    PolygonSDF2_evaluate_on_consecutive inside (a :: b :: X) Y u v p hd⟩

/-- C12: for every radius `> 0`, pitch `> 0` and length `> 0` the screw
`Screw3D(ISOThread(radius, pitch, "external"), length, pitch, 1)` evaluates to `0` at
`(radius, 0, 0)`.  `ISOThread` hands to `Polygon2D` the frozen vertex list
`(pitch, 0), (pitch, y1), arc, (pitch/16, radius), (-pitch/16, radius), arc, (-pitch, y1),
(-pitch, 0)`, in which the two crest vertices are consecutive and span an edge of the
polygon; the point `(radius, 0, 0)` maps to the profile point `(0, radius)`, which has
distance `0` to that edge; so the polygon distance there is `0`, whatever the arcs of the
rounded vertices and the inside test, and so is the screw distance. -/
theorem iso_screw_crest (arc : List (PolygonVertex ℝ) → Nat → List (V2 ℝ))
    (inside : List (V2 ℝ) → V2 ℝ → Bool) (radius pitch length : ℝ)
    (hr : 0 < radius) (hp : 0 < pitch) (hl : 0 < length) :
    ∃ (iso : Polygon ℝ) (y1 : ℝ),
      ISOThread.polygon radius pitch "external" = Except.ok iso ∧
        (∀ Polygon2D : List (V2 ℝ) → SDF2 ℝ,
          ISOThread arc Polygon2D radius pitch "external" =
            Except.ok (Polygon2D (iso.Vertices arc))) ∧
        iso.Vertices arc =
          ⟨pitch, 0⟩ :: ⟨pitch, y1⟩ ::
            (arc iso.vlist 2 ++
              ⟨pitch / 16, radius⟩ :: ⟨-(pitch / 16), radius⟩ ::
                (arc iso.vlist 5 ++ [⟨-pitch, y1⟩, ⟨-pitch, 0⟩])) ∧
        ((⟨pitch / 16, radius⟩, ⟨-(pitch / 16), radius⟩) : V2 ℝ × V2 ℝ) ∈
          polygonEdges ⟨pitch, 0⟩ (iso.Vertices arc) ∧
        (Screw3D (PolygonSDF2 inside (iso.Vertices arc)) length pitch 1).profilePoint
          ⟨radius, 0, 0⟩ = ⟨0, radius⟩ ∧
        segmentDistance (⟨pitch / 16, radius⟩ : V2 ℝ) ⟨-(pitch / 16), radius⟩ ⟨0, radius⟩ = 0 ∧
        (PolygonSDF2 inside (iso.Vertices arc)).Evaluate ⟨0, radius⟩ = 0 ∧
        (Screw3D (PolygonSDF2 inside (iso.Vertices arc)) length pitch 1).Evaluate
          ⟨radius, 0, 0⟩ = 0 := by
  have hc : (1.0 / 16.0 : ℝ) * pitch = pitch / 16 := by norm_num; ring
  have hseg := segmentDistance_crest (pitch / 16) radius (by positivity)
  have hpoly := ISOThread_external_polygon radius pitch
  have harg : Complex.arg (⟨radius, 0⟩ : ℂ) = 0 :=
    Complex.arg_eq_zero_iff.mpr ⟨hr.le, rfl⟩
  have hsq : Real.sqrt (radius * radius + 0 * 0) = radius := by
    rw [mul_zero, add_zero]
    exact Real.sqrt_mul_self hr.le
  have hpt : ∀ thread : SDF2 ℝ,
      (Screw3D thread length pitch 1).profilePoint ⟨radius, 0, 0⟩ = ⟨0, radius⟩ := by
    intro thread
    simp only [ScrewSDF3.profilePoint, Screw3D, GoMath.Atan2, GoMath.Sqrt, harg, hsq,
      mul_zero, zero_div, add_zero, SawTooth_zero pitch hp.ne', Real.sqrt_mul_self hr.le]
  have key : ∀ {P Q : Prop}, P → (P → Q) → P ∧ Q := fun hP hPQ => ⟨hP, hPQ hP⟩
  refine ⟨_, radius - (7.0 / 8.0) * (pitch / (2.0 * GoMath.Tan (DtoR 30.0)))
    + pitch / (2.0 * GoMath.Tan (DtoR 30.0)), hpoly, ?_, ?_⟩
  · intro Polygon2D
    simp only [ISOThread, hpoly]
  · rw [hc]
    refine key rfl ?_
    intro hV
    obtain ⟨hmem, hev⟩ := PolygonSDF2_crest_of_shape inside _ _ _ _ _ _ _ _ hV hseg
    refine ⟨hmem, hpt _, hseg, hev, ?_⟩
    rw [ScrewSDF3.Evaluate_eq_max, hpt]
    simp only [Screw3D, hev, abs_zero]
    exact max_eq_left (by linarith)

/-- Witness of C12: the M6x1 thread (radius 3, pitch 1) screwed to length 20 evaluates
to `0` at `(3, 0, 0)`, with empty arcs and an inside test that is always false. -/
theorem iso_screw_crest_witness :
    (0 : ℝ) < 3 ∧ (0 : ℝ) < 1 ∧ (0 : ℝ) < 20 ∧
      ∃ iso : Polygon ℝ,
        ISOThread (fun _ _ => []) (PolygonSDF2 (fun _ _ => false)) (3 : ℝ) 1 "external" =
            Except.ok (PolygonSDF2 (fun _ _ => false) (iso.Vertices (fun _ _ => []))) ∧
          ((⟨1 / 16, 3⟩, ⟨-(1 / 16), 3⟩) : V2 ℝ × V2 ℝ) ∈
            polygonEdges ⟨1, 0⟩ (iso.Vertices (fun _ _ => [])) ∧
          (Screw3D (PolygonSDF2 (fun _ _ => false) (iso.Vertices (fun _ _ => []))) 20 1
            1).Evaluate ⟨3, 0, 0⟩ = 0 := by
  obtain ⟨iso, y1, _, h2, _, h4, _, _, _, h8⟩ :=
    iso_screw_crest (fun _ _ => []) (fun _ _ => false) 3 1 20 (by norm_num) (by norm_num)
      (by norm_num)
  exact ⟨by norm_num, by norm_num, by norm_num, iso, h2 _, h4, h8⟩

/-- C14: `ISOThread(radius, pitch, mode)` panics, with "bad mode", if and only if `mode`
is neither "external" nor "internal"; for those two modes it returns a profile for every
radius and pitch. -/
theorem isoThread_mode {F : Type} [LinearOrderedField F] [FloorRing F] [GoMath F]
    (arc : List (PolygonVertex F) → Nat → List (V2 F)) (Polygon2D : List (V2 F) → SDF2 F)
    (radius pitch : F) (mode : String) :
    ((∃ e, ISOThread arc Polygon2D radius pitch mode = Except.error e) ↔
        (mode ≠ "external" ∧ mode ≠ "internal")) ∧
      (mode ≠ "external" ∧ mode ≠ "internal" →
        ISOThread arc Polygon2D radius pitch mode = Except.error "bad mode") ∧
      (mode = "external" ∨ mode = "internal" →
        ∃ profile, ISOThread arc Polygon2D radius pitch mode = Except.ok profile) := by
  by_cases h1 : mode = "external"
  · subst h1
    simp [ISOThread, ISOThread.polygon]
  · by_cases h2 : mode = "internal"
    · subst h2
      simp [ISOThread, ISOThread.polygon]
    · simp [ISOThread, ISOThread.polygon, h1, h2]

/-- Witness of C14: the mode "metric" is neither "external" nor "internal" and panics with
"bad mode"; the mode "internal" returns a profile. -/
theorem isoThread_mode_witness :
    (("metric" : String) ≠ "external" ∧ ("metric" : String) ≠ "internal") ∧
      ISOThread (fun _ _ => []) (PolygonSDF2 (fun _ _ => false)) (3 : ℝ) 1 "metric" =
        Except.error "bad mode" ∧
      ∃ profile,
        ISOThread (fun _ _ => []) (PolygonSDF2 (fun _ _ => false)) (3 : ℝ) 1 "internal" =
          Except.ok profile :=
  ⟨by decide,
    (isoThread_mode (fun _ _ => []) (PolygonSDF2 (fun _ _ => false)) (3 : ℝ) 1 "metric").2.1
      (by decide),
    (isoThread_mode (fun _ _ => []) (PolygonSDF2 (fun _ _ => false)) (3 : ℝ) 1 "internal").2.2
      (Or.inr rfl)⟩

/-! ### The thread database -/

/-- The empty map stores nothing. -/
theorem ThreadDatabase.get_make {F : Type} (name : String) :
    (ThreadDatabase.make : ThreadDatabase F).get name = none :=
  AList.lookup_empty name

/-- Reading a name other than the one just added by `UTSAdd` reads the map as it was. -/
theorem ThreadDatabase.get_UTSAdd_ne {F : Type} [LinearOrderedField F]
    (m : ThreadDatabase F) (name k : String) (diameter tpi hex_f2f : F) (h : k ≠ name) :
    (m.UTSAdd name diameter tpi hex_f2f).get k = m.get k :=
  AList.lookup_insert_ne h

/-- Reading a name other than the one just added by `ISOAdd` reads the map as it was. -/
theorem ThreadDatabase.get_ISOAdd_ne {F : Type} [LinearOrderedField F]
    (m : ThreadDatabase F) (name k : String) (diameter pitch hex_f2f : F) (h : k ≠ name) :
    (m.ISOAdd name diameter pitch hex_f2f).get k = m.get k :=
  AList.lookup_insert_ne h

/-- Reading the name just added by `UTSAdd` gives the record built by `UTSAdd`. -/
theorem ThreadDatabase.get_UTSAdd_self {F : Type} [LinearOrderedField F]
    (m : ThreadDatabase F) (name : String) (diameter tpi hex_f2f : F) :
    (m.UTSAdd name diameter tpi hex_f2f).get name =
      some ⟨name, diameter / 2.0, 1.0 / tpi, hex_f2f, "inch"⟩ :=
  AList.lookup_insert _

/-- Reading the name just added by `ISOAdd` gives the record built by `ISOAdd`. -/
theorem ThreadDatabase.get_ISOAdd_self {F : Type} [LinearOrderedField F]
    (m : ThreadDatabase F) (name : String) (diameter pitch hex_f2f : F) :
    (m.ISOAdd name diameter pitch hex_f2f).get name =
      some ⟨name, diameter / 2.0, pitch, hex_f2f, "mm"⟩ :=
  AList.lookup_insert _

/-- `UTSAdd` keeps the property that every record is stored under its own name. -/
theorem ThreadDatabase.names_UTSAdd {F : Type} [LinearOrderedField F]
    (m : ThreadDatabase F) (name : String) (diameter tpi hex_f2f : F)
    (h : ∀ k t, m.get k = some t → t.Name = k) :
    ∀ k t, (m.UTSAdd name diameter tpi hex_f2f).get k = some t → t.Name = k := by
  intro k t hk
  by_cases hkn : k = name
  · subst hkn
    rw [ThreadDatabase.get_UTSAdd_self] at hk
    rw [← Option.some.inj hk]
  · rw [ThreadDatabase.get_UTSAdd_ne m name k _ _ _ hkn] at hk
    exact h k t hk

/-- `ISOAdd` keeps the property that every record is stored under its own name. -/
theorem ThreadDatabase.names_ISOAdd {F : Type} [LinearOrderedField F]
    (m : ThreadDatabase F) (name : String) (diameter pitch hex_f2f : F)
    (h : ∀ k t, m.get k = some t → t.Name = k) :
    ∀ k t, (m.ISOAdd name diameter pitch hex_f2f).get k = some t → t.Name = k := by
  intro k t hk
  by_cases hkn : k = name
  · subst hkn
    rw [ThreadDatabase.get_ISOAdd_self] at hk
    rw [← Option.some.inj hk]
  · rw [ThreadDatabase.get_ISOAdd_ne m name k _ _ _ hkn] at hk
    exact h k t hk

/-- Every record of the initialised thread database is stored under its own name. -/
theorem Init_ThreadLookup_names (F : Type) [LinearOrderedField F] :
    ∀ k t, (Init_ThreadLookup F).get k = some t → t.Name = k := by
  unfold Init_ThreadLookup
  repeat (first
    | apply ThreadDatabase.names_UTSAdd
    | apply ThreadDatabase.names_ISOAdd)
  intro k t hk
  rw [ThreadDatabase.get_make] at hk
  exact absurd hk (by simp)

/-- C15: `ThreadLookup(name)` panics, with "thread name not found", if and only if `name`
is not a key of the thread database; otherwise it returns the record stored under that
key, whose `Name` field equals `name`. -/
theorem threadLookup_spec (F : Type) [LinearOrderedField F] (name : String) :
    ((∃ e, ThreadLookup F name = Except.error e) ↔ name ∉ (thread_db F).entries) ∧
      (name ∉ (thread_db F).entries →
        ThreadLookup F name = Except.error "thread name not found") ∧
      (∀ t, (thread_db F).get name = some t →
        ThreadLookup F name = Except.ok t ∧ t.Name = name) := by
  have hmem : name ∉ (thread_db F).entries ↔ (thread_db F).get name = none :=
    AList.lookup_eq_none.symm
  rw [hmem]
  unfold ThreadLookup
  cases hget : (thread_db F).get name with
  | none => simp
  | some t =>
    have hname : t.Name = name := Init_ThreadLookup_names F name t hget
    simp [hname]

/-- Witness of C15: `ThreadLookup("M6x1")` returns the record with radius 3, pitch 1, hex
flat to flat distance 10 and units "mm". -/
theorem threadLookup_spec_witness :
    (thread_db ℚ).get "M6x1" = some ⟨"M6x1", 3, 1, 10, "mm"⟩ ∧
      ThreadLookup ℚ "M6x1" = Except.ok ⟨"M6x1", 3, 1, 10, "mm"⟩ ∧
      (⟨"M6x1", 3, 1, 10, "mm"⟩ : ThreadParameters ℚ).Name = "M6x1" := by
  have hget : (thread_db ℚ).get "M6x1" = some ⟨"M6x1", 3, 1, 10, "mm"⟩ := by
    unfold thread_db Init_ThreadLookup
    simp only [ne_eq, String.reduceEq, not_false_eq_true, ThreadDatabase.get_ISOAdd_ne,
      ThreadDatabase.get_ISOAdd_self]
    norm_num
  exact ⟨hget, (threadLookup_spec ℚ "M6x1").2.2 _ hget⟩

/-! ### The x-extent of the thread profiles -/

/-- Over the reals the tangent of the Acme flank angle, 14.5 degrees, lies in `[0, 1)`. -/
theorem tan_acme_flank :
    0 ≤ (GoMath.Tan (DtoR (29.0 / 2.0 : ℝ)) : ℝ) ∧ (GoMath.Tan (DtoR (29.0 / 2.0 : ℝ)) : ℝ) < 1 := by
  have hpi := Real.pi_pos
  have h0 : (0 : ℝ) ≤ Real.pi * (29.0 / 2.0) / 180 := by positivity
  have h1 : Real.pi * (29.0 / 2.0) / 180 < Real.pi / 4 := by
    norm_num
    linarith
  have h2 : Real.pi / 4 < Real.pi / 2 := by linarith
  constructor
  · exact Real.tan_nonneg_of_nonneg_of_le_pi_div_two h0 (h1.trans h2).le
  · have := Real.tan_lt_tan_of_nonneg_of_lt_pi_div_two h0 h2 h1
    rwa [Real.tan_pi_div_four] at this

/-- For radius 1 and pitch 4 every vertex of the polygon built by `AcmeThread` has its
`x` strictly between `-2` and `2`. -/
theorem acme_vertices_short :
    ∀ v ∈ (AcmeThread.polygon (1 : ℝ) 4).Vertices (fun _ _ => []),
      -(4 / 2 : ℝ) < v.X ∧ v.X < 4 / 2 := by
  obtain ⟨ht0, ht1⟩ := tan_acme_flank
  intro v hv
  simp only [AcmeThread.polygon, Polygon.Vertices, Polygon.freeze, Polygon.Add, NewPolygon,
    List.nil_append, List.cons_append, List.singleton_append, List.append_nil,
    List.mem_cons, List.mem_singleton, List.not_mem_nil, or_false] at hv
  rcases hv with h | h | h | h | h | h | h | h <;> subst h <;>
    constructor <;> norm_num <;> linarith

/-- C19 (the code at the failing input): for radius 1 and pitch 4 the x-extent
`[Min().X, Max().X]` of the vertex list built by `AcmeThread` lies strictly inside
`(-2, 2)`, so it does not contain the pitch period `[-pitch/2, pitch/2] = [-2, 2]`. -/
theorem acmeThread_extent_short :
    ∃ lo hi : V2 ℝ,
      V2Set.Min ((AcmeThread.polygon (1 : ℝ) 4).Vertices (fun _ _ => [])) = Except.ok lo ∧
        V2Set.Max ((AcmeThread.polygon (1 : ℝ) 4).Vertices (fun _ _ => [])) = Except.ok hi ∧
        -(4 / 2 : ℝ) < lo.X ∧ hi.X < 4 / 2 := by
  have hshort := acme_vertices_short
  obtain ⟨a0, rest, hL⟩ : ∃ a0 rest,
      (AcmeThread.polygon (1 : ℝ) 4).Vertices (fun _ _ => []) = a0 :: rest := ⟨_, _, rfl⟩
  rw [hL] at hshort ⊢
  have hm : a0 ∈ a0 :: rest := List.mem_cons_self _ _
  obtain ⟨_, v, hv, hlo⟩ := foldl_component_min_of_mem (fun v : V2 ℝ => v.X)
    (fun vmin v => vmin.Min v) (fun _ _ => rfl) (a0 :: rest) a0 hm
  obtain ⟨_, w, hw, hhi⟩ := foldl_component_max_of_mem (fun v : V2 ℝ => v.X)
    (fun vmax v => vmax.Max v) (fun _ _ => rfl) (a0 :: rest) a0 hm
  refine ⟨_, _, rfl, rfl, ?_, ?_⟩
  · exact lt_of_lt_of_eq (hshort v hv).1 hlo.symm
  · exact lt_of_eq_of_lt hhi (hshort w hw).2

/-- The vertex list that `KnurlProfile` hands to `Polygon2D` is the freeze of its builder
state, whatever the arc function: no vertex of the knurl profile is rounded. -/
theorem KnurlProfile_eq_freeze {F : Type} [LinearOrderedField F]
    (arc : List (PolygonVertex F) → Nat → List (V2 F)) (Polygon2D : List (V2 F) → SDF2 F)
    (radius pitch height : F) :
    KnurlProfile Polygon2D radius pitch height =
      Polygon2D ((KnurlProfile.polygon radius pitch height).Vertices arc) :=
  rfl

/-- The profiles other than Acme cover the pitch period for every radius and every
`pitch > 0`, whatever the arcs of their rounded vertices: the frozen vertex lists of
`ISOThread` (both modes), `ANSIButtressThread`, `PlasticButtressThread` and `KnurlProfile`
each have a vertex with `x ≤ -pitch/2` and a vertex with `x ≥ pitch/2`. -/
theorem profiles_cover_pitch_period {F : Type} [LinearOrderedField F] [FloorRing F] [GoMath F]
    (arc : List (PolygonVertex F) → Nat → List (V2 F)) (radius pitch height : F)
    (hp : 0 < pitch) :
    (∀ (mode : String) (iso : Polygon F), ISOThread.polygon radius pitch mode = Except.ok iso →
        (∃ v ∈ iso.Vertices arc, v.X ≤ -(pitch / 2)) ∧
          (∃ v ∈ iso.Vertices arc, pitch / 2 ≤ v.X)) ∧
      ((∃ v ∈ (ANSIButtressThread.polygon radius pitch).Vertices arc, v.X ≤ -(pitch / 2)) ∧
        (∃ v ∈ (ANSIButtressThread.polygon radius pitch).Vertices arc, pitch / 2 ≤ v.X)) ∧
      ((∃ v ∈ (PlasticButtressThread.polygon radius pitch).Vertices arc, v.X ≤ -(pitch / 2)) ∧
        (∃ v ∈ (PlasticButtressThread.polygon radius pitch).Vertices arc, pitch / 2 ≤ v.X)) ∧
      ((∃ v ∈ (KnurlProfile.polygon radius pitch height).Vertices arc, v.X ≤ -(pitch / 2)) ∧
        (∃ v ∈ (KnurlProfile.polygon radius pitch height).Vertices arc, pitch / 2 ≤ v.X)) := by
  refine ⟨fun mode iso hiso => ?_, ⟨⟨⟨-pitch, 0⟩, ?_, ?_⟩, ⟨⟨pitch, 0⟩, ?_, ?_⟩⟩,
    ⟨⟨⟨-pitch, 0⟩, ?_, ?_⟩, ⟨⟨pitch, 0⟩, ?_, ?_⟩⟩,
    ⟨⟨⟨-pitch / 2, 0⟩, ?_, ?_⟩, ⟨⟨pitch / 2, 0⟩, ?_, ?_⟩⟩⟩
  · by_cases h1 : mode = "external"
    · subst h1
      simp only [ISOThread.polygon, if_true] at hiso
      have hi := (Except.ok.inj hiso).symm
      subst hi
      refine ⟨⟨⟨-pitch, 0⟩, ?_, ?_⟩, ⟨⟨pitch, 0⟩, ?_, ?_⟩⟩
      · apply Polygon.mem_freeze_of_plain
        simp [Polygon.Add, Polygon.Smooth, NewPolygon]
      · show -pitch ≤ -(pitch / 2)
        linarith
      · apply Polygon.mem_freeze_of_plain
        simp [Polygon.Add, Polygon.Smooth, NewPolygon]
      · show pitch / 2 ≤ pitch
        linarith
    · by_cases h2 : mode = "internal"
      · subst h2
        simp only [ISOThread.polygon, String.reduceEq, if_false, if_true] at hiso
        have hi := (Except.ok.inj hiso).symm
        subst hi
        refine ⟨⟨⟨-pitch, 0⟩, ?_, ?_⟩, ⟨⟨pitch, 0⟩, ?_, ?_⟩⟩
        · apply Polygon.mem_freeze_of_plain
          simp [Polygon.Add, Polygon.Smooth, NewPolygon]
        · show -pitch ≤ -(pitch / 2)
          linarith
        · apply Polygon.mem_freeze_of_plain
          simp [Polygon.Add, Polygon.Smooth, NewPolygon]
        · show pitch / 2 ≤ pitch
          linarith
      · simp [ISOThread.polygon, h1, h2] at hiso
  · apply Polygon.mem_freeze_of_plain
    simp [ANSIButtressThread.polygon, Polygon.Add, Polygon.Smooth, NewPolygon]
  · show -pitch ≤ -(pitch / 2)
    linarith
  · apply Polygon.mem_freeze_of_plain
    simp [ANSIButtressThread.polygon, Polygon.Add, Polygon.Smooth, NewPolygon]
  · show pitch / 2 ≤ pitch
    linarith
  · apply Polygon.mem_freeze_of_plain
    simp [PlasticButtressThread.polygon, Polygon.Add, Polygon.Smooth, NewPolygon]
  · show -pitch ≤ -(pitch / 2)
    linarith
  · apply Polygon.mem_freeze_of_plain
    simp [PlasticButtressThread.polygon, Polygon.Add, Polygon.Smooth, NewPolygon]
  · show pitch / 2 ≤ pitch
    linarith
  · apply Polygon.mem_freeze_of_plain
    simp [KnurlProfile.polygon, Polygon.Add, NewPolygon]
  · show -pitch / 2 ≤ -(pitch / 2)
    linarith
  · apply Polygon.mem_freeze_of_plain
    simp [KnurlProfile.polygon, Polygon.Add, NewPolygon]
  · show pitch / 2 ≤ pitch / 2
    exact le_refl _

/-- The Acme profile covers the pitch period once the radius is at least half the pitch:
the frozen vertex list of `AcmeThread` then has the vertices `(-radius, 0)` and
`(radius, 0)` with `-radius ≤ -pitch/2` and `pitch/2 ≤ radius`. -/
theorem acme_covers_pitch_period {F : Type} [LinearOrderedField F] [FloorRing F] [GoMath F]
    (arc : List (PolygonVertex F) → Nat → List (V2 F)) (radius pitch : F)
    (hr : pitch / 2 ≤ radius) :
    (∃ v ∈ (AcmeThread.polygon radius pitch).Vertices arc, v.X ≤ -(pitch / 2)) ∧
      (∃ v ∈ (AcmeThread.polygon radius pitch).Vertices arc, pitch / 2 ≤ v.X) := by
  refine ⟨⟨⟨-radius, 0⟩, ?_, ?_⟩, ⟨⟨radius, 0⟩, ?_, ?_⟩⟩
  · apply Polygon.mem_freeze_of_plain
    simp [AcmeThread.polygon, Polygon.Add, NewPolygon]
  · show -radius ≤ -(pitch / 2)
    linarith
  · apply Polygon.mem_freeze_of_plain
    simp [AcmeThread.polygon, Polygon.Add, NewPolygon]
  · exact hr

/-! ### Cross products and colinearity -/

/-- C25: for all 3D vectors `a` and `b` the cross product `a.Cross(b)` is orthogonal to
both operands and anticommutative, `b.Cross(a) = a.Cross(b).Neg()`; for 2D vectors
`a.Cross(b) = -b.Cross(a)` and `a.Cross(a) = 0`.  Holds over every ordered field, the
reals among them. -/
theorem cross_product_laws {F : Type} [LinearOrderedField F] (a b : V3 F) (c d : V2 F) :
    (a.Cross b).Dot a = 0 ∧ (a.Cross b).Dot b = 0 ∧ b.Cross a = (a.Cross b).Neg ∧
      c.Cross d = -d.Cross c ∧ c.Cross c = 0 := by
  refine ⟨?_, ?_, ?_, ?_, ?_⟩
  · simp only [V3.Cross, V3.Dot]
    ring
  · simp only [V3.Cross, V3.Dot]
    ring
  · simp only [V3.Cross, V3.Neg, neg_sub]
    congr 1 <;> ring
  · simp only [V2.Cross]
    ring
  · simp only [V2.Cross]
    ring

/-- C21: `Colinear_Fast(a, b, c, tolerance)` is true exactly when
`|(a-b) x (b-c)| < tolerance`, the cross product written out in coordinates as
`(a.X - b.X)(b.Y - c.Y) - (a.Y - b.Y)(b.X - c.X)`; that is exactly when twice the area of
the triangle `abc`, `|a.X (b.Y - c.Y) + b.X (c.Y - a.Y) + c.X (a.Y - b.Y)|`, is below the
tolerance, so a triangle is rejected by every tolerance up to its doubled area; and for
three points `p + s d`, `p + t d`, `p + r d` of one line and every tolerance `> 0` the
result is true. -/
theorem colinear_fast_spec {F : Type} [LinearOrderedField F] [FloorRing F]
    (a b c : V2 F) (tolerance : F) :
    (Colinear_Fast a b c tolerance = true ↔
        |(a.X - b.X) * (b.Y - c.Y) - (a.Y - b.Y) * (b.X - c.X)| < tolerance) ∧
      (Colinear_Fast a b c tolerance = true ↔
        |a.X * (b.Y - c.Y) + b.X * (c.Y - a.Y) + c.X * (a.Y - b.Y)| < tolerance) ∧
      (tolerance ≤ |a.X * (b.Y - c.Y) + b.X * (c.Y - a.Y) + c.X * (a.Y - b.Y)| →
        Colinear_Fast a b c tolerance = false) ∧
      (0 < tolerance →
        (∃ (p d : V2 F) (s t r : F), a = p.Add (d.MulScalar s) ∧ b = p.Add (d.MulScalar t) ∧
          c = p.Add (d.MulScalar r)) →
        Colinear_Fast a b c tolerance = true) := by
  have hcode : (Colinear_Fast a b c tolerance = true ↔
      |(a.X - b.X) * (b.Y - c.Y) - (a.Y - b.Y) * (b.X - c.X)| < tolerance) := by
    simp only [Colinear_Fast, Abs, V2.Sub, V2.Cross, decide_eq_true_eq]
  have harea : (a.X - b.X) * (b.Y - c.Y) - (a.Y - b.Y) * (b.X - c.X)
      = a.X * (b.Y - c.Y) + b.X * (c.Y - a.Y) + c.X * (a.Y - b.Y) := by ring
  have hshoe : (Colinear_Fast a b c tolerance = true ↔
      |a.X * (b.Y - c.Y) + b.X * (c.Y - a.Y) + c.X * (a.Y - b.Y)| < tolerance) := by
    rw [← harea]
    exact hcode
  refine ⟨hcode, hshoe, ?_, ?_⟩
  · intro hle
    cases hcf : Colinear_Fast a b c tolerance with
    | false => rfl
    | true => exact absurd (hshoe.mp hcf) (not_lt.mpr hle)
  · rintro htol ⟨p, d, s, t, r, ha, hb, hc⟩
    rw [hshoe]
    have hzero : a.X * (b.Y - c.Y) + b.X * (c.Y - a.Y) + c.X * (a.Y - b.Y) = 0 := by
      subst ha hb hc
      simp only [V2.Add, V2.MulScalar]
      ring
    rw [hzero, abs_zero]
    exact htol

/-- Witness of C21: the points `(0, 0)`, `(1, 1)` and `(3, 3)` lie on the line through
the origin with direction `(1, 1)` and are colinear for the tolerance `1/1000`; the
triangle `(0, 0)`, `(1, 0)`, `(0, 1)` of doubled area 1 is not. -/
theorem colinear_fast_spec_witness :
    (0 : ℚ) < 1 / 1000 ∧
      (∃ (p d : V2 ℚ) (s t r : ℚ), (⟨0, 0⟩ : V2 ℚ) = p.Add (d.MulScalar s) ∧
        (⟨1, 1⟩ : V2 ℚ) = p.Add (d.MulScalar t) ∧ (⟨3, 3⟩ : V2 ℚ) = p.Add (d.MulScalar r)) ∧
      Colinear_Fast (⟨0, 0⟩ : V2 ℚ) ⟨1, 1⟩ ⟨3, 3⟩ (1 / 1000) = true ∧
      Colinear_Fast (⟨0, 0⟩ : V2 ℚ) ⟨1, 0⟩ ⟨0, 1⟩ (1 / 1000) = false := by
  have hline : ∃ (p d : V2 ℚ) (s t r : ℚ), (⟨0, 0⟩ : V2 ℚ) = p.Add (d.MulScalar s) ∧
      (⟨1, 1⟩ : V2 ℚ) = p.Add (d.MulScalar t) ∧ (⟨3, 3⟩ : V2 ℚ) = p.Add (d.MulScalar r) :=
    ⟨⟨0, 0⟩, ⟨1, 1⟩, 0, 1, 3, by norm_num [V2.Add, V2.MulScalar],
      by norm_num [V2.Add, V2.MulScalar], by norm_num [V2.Add, V2.MulScalar]⟩
  exact ⟨by norm_num, hline,
    (colinear_fast_spec (⟨0, 0⟩ : V2 ℚ) ⟨1, 1⟩ ⟨3, 3⟩ (1 / 1000)).2.2.2 (by norm_num) hline,
    (colinear_fast_spec (⟨0, 0⟩ : V2 ℚ) ⟨1, 0⟩ ⟨0, 1⟩ (1 / 1000)).2.2.1 (by norm_num)⟩

/-! ### Left-hand and right-hand screws -/

/-- Over the reals, reflecting a point in the plane `y = 0` negates its angle
`atan2(y, x)`, except on the negative x-axis, where the angle is `π` on both sides. -/
theorem atan2_neg_y (x y : ℝ) :
    (GoMath.Atan2 (-y) x : ℝ) = -GoMath.Atan2 y x ∨
      ((GoMath.Atan2 (-y) x : ℝ) = Real.pi ∧ (GoMath.Atan2 y x : ℝ) = Real.pi) := by
  show Complex.arg ⟨x, -y⟩ = -Complex.arg ⟨x, y⟩ ∨
    (Complex.arg ⟨x, -y⟩ = Real.pi ∧ Complex.arg ⟨x, y⟩ = Real.pi)
  have hconj : (⟨x, -y⟩ : ℂ) = (starRingEnd ℂ) (⟨x, y⟩ : ℂ) := by
    apply Complex.ext <;> simp
  rw [hconj, Complex.arg_conj]
  by_cases h : Complex.arg ⟨x, y⟩ = Real.pi
  · right
    rw [if_pos h]
    exact ⟨rfl, h⟩
  · left
    rw [if_neg h]

/-- C22: negating the start count mirrors the screw.  For every thread profile, length,
`pitch > 0`, integer `n` and point `(x, y, z)`,
`Screw3D(thread, length, pitch, -n).Evaluate((x, -y, z))` equals
`Screw3D(thread, length, pitch, n).Evaluate((x, y, z))`, and the two screws have the same
bounding box. -/
theorem screw_mirror (thread : SDF2 ℝ) (length pitch : ℝ) (n : Int) (hp : 0 < pitch)
    (x y z : ℝ) :
    (Screw3D thread length pitch (-n)).Evaluate ⟨x, -y, z⟩ =
        (Screw3D thread length pitch n).Evaluate ⟨x, y, z⟩ ∧
      (Screw3D thread length pitch (-n)).BoundingBox =
        (Screw3D thread length pitch n).BoundingBox := by
  refine ⟨?_, rfl⟩
  have hpi : Real.pi ≠ 0 := Real.pi_ne_zero
  have hpt : (Screw3D thread length pitch (-n)).profilePoint ⟨x, -y, z⟩ =
      (Screw3D thread length pitch n).profilePoint ⟨x, y, z⟩ := by
    simp only [ScrewSDF3.profilePoint, Screw3D, TAU]
    have hs : x * x + (-y) * (-y) = x * x + y * y := by ring
    rw [hs]
    congr 1
    rcases atan2_neg_y x y with ht | ⟨ht1, ht2⟩
    · rw [ht]
      congr 1
      push_cast
      ring
    · have h : z + -pitch * ((-n : Int) : ℝ) * GoMath.Atan2 (-y) x / (2 * GoMath.Pi)
          = (z + -pitch * (n : ℝ) * GoMath.Atan2 y x / (2 * GoMath.Pi))
            + ((n : Int) : ℝ) * pitch := by
        rw [ht1, ht2]
        show _ + _ / (2 * Real.pi) = _ + _ / (2 * Real.pi) + _
        push_cast
        field_simp
        ring
      rw [h, SawTooth_add_int_mul _ _ _ hp.ne']
  rw [ScrewSDF3.Evaluate_eq_max, ScrewSDF3.Evaluate_eq_max, hpt]
  rfl

/-- Witness of C22: the screws of length 2 and pitch 1 with 3 and with -3 starts cut from
the rod profile of radius 3, at the points `(1, 2, 0)` and `(1, -2, 0)`. -/
theorem screw_mirror_witness :
    (0 : ℝ) < 1 ∧
      (Screw3D (rodProfile (3 : ℝ)) 2 1 (-3)).Evaluate ⟨1, -2, 0⟩ =
        (Screw3D (rodProfile (3 : ℝ)) 2 1 3).Evaluate ⟨1, 2, 0⟩ ∧
      (Screw3D (rodProfile (3 : ℝ)) 2 1 (-3)).BoundingBox =
        (Screw3D (rodProfile (3 : ℝ)) 2 1 3).BoundingBox :=
  ⟨by norm_num, screw_mirror (rodProfile 3) 2 1 3 (by norm_num) 1 2 0⟩

/-! ### The entries of the thread database -/

set_option maxRecDepth 8000 in
/-- The keys of the initialised thread database: the 62 names of the source, the last one
added first. -/
theorem Init_ThreadLookup_keys (F : Type) [LinearOrderedField F] :
    (Init_ThreadLookup F).entries.keys =
    ["M64x4", "M56x4", "M48x3", "M42x3", "M36x3", "M30x2", "M24x2", "M20x2", "M16x1.5",
      "M12x1.5", "M10x1.25", "M8x1", "M6x0.75", "M5x0.5", "M4x0.5", "M3x0.35", "M2.5x0.35",
      "M2x0.25", "M1.6x0.2", "M1.2x0.2", "M1x0.2", "M64x6", "M56x5.5", "M48x5", "M42x4.5",
      "M36x4", "M30x3.5", "M24x3", "M20x2.5", "M16x2", "M12x1.75", "M10x1.5", "M8x1.25",
      "M6x1", "M5x0.8", "M4x0.7", "M3x0.5", "M2.5x0.45", "M2x0.4", "M1.6x0.35",
      "M1.2x0.25", "M1x0.25", "unf_1", "unf_7/8", "unf_3/4", "unf_5/8", "unf_9/16",
      "unf_1/2", "unf_7/16", "unf_3/8", "unf_5/16", "unf_1/4", "unc_1", "unc_7/8",
      "unc_3/4", "unc_5/8", "unc_9/16", "unc_1/2", "unc_7/16", "unc_3/8", "unc_5/16",
      "unc_1/4"] := by
  unfold Init_ThreadLookup
  simp only [ThreadDatabase.UTSAdd, ThreadDatabase.ISOAdd, ThreadDatabase.make,
    AList.keys_insert, AList.keys_empty, List.erase_cons, List.erase_nil, String.reduceBEq,
    Bool.false_eq_true, if_false]

/-- `UTSAdd` with a positive diameter and a positive thread count keeps the property that
every record is stored under its own name, has a positive radius and a positive pitch,
and is in inches or millimetres. -/
theorem ThreadDatabase.usable_UTSAdd {F : Type} [LinearOrderedField F]
    (m : ThreadDatabase F) (name : String) (diameter tpi hex_f2f : F)
    (hd : 0 < diameter) (ht : 0 < tpi)
    (h : ∀ k t, m.get k = some t →
      t.Name = k ∧ 0 < t.Radius ∧ 0 < t.Pitch ∧ (t.Units = "inch" ∨ t.Units = "mm")) :
    ∀ k t, (m.UTSAdd name diameter tpi hex_f2f).get k = some t →
      t.Name = k ∧ 0 < t.Radius ∧ 0 < t.Pitch ∧ (t.Units = "inch" ∨ t.Units = "mm") := by
  intro k t hk
  by_cases hkn : k = name
  · subst hkn
    rw [ThreadDatabase.get_UTSAdd_self] at hk
    rw [← Option.some.inj hk]
    exact ⟨rfl, div_pos hd (by norm_num), div_pos (by norm_num) ht, Or.inl rfl⟩
  · rw [ThreadDatabase.get_UTSAdd_ne m name k _ _ _ hkn] at hk
    exact h k t hk

/-- `ISOAdd` with a positive diameter and a positive pitch keeps the property that every
record is stored under its own name, has a positive radius and a positive pitch, and is
in inches or millimetres. -/
theorem ThreadDatabase.usable_ISOAdd {F : Type} [LinearOrderedField F]
    (m : ThreadDatabase F) (name : String) (diameter pitch hex_f2f : F)
    (hd : 0 < diameter) (hp : 0 < pitch)
    (h : ∀ k t, m.get k = some t →
      t.Name = k ∧ 0 < t.Radius ∧ 0 < t.Pitch ∧ (t.Units = "inch" ∨ t.Units = "mm")) :
    ∀ k t, (m.ISOAdd name diameter pitch hex_f2f).get k = some t →
      t.Name = k ∧ 0 < t.Radius ∧ 0 < t.Pitch ∧ (t.Units = "inch" ∨ t.Units = "mm") := by
  intro k t hk
  by_cases hkn : k = name
  · subst hkn
    rw [ThreadDatabase.get_ISOAdd_self] at hk
    rw [← Option.some.inj hk]
    exact ⟨rfl, div_pos hd (by norm_num), hp, Or.inr rfl⟩
  · rw [ThreadDatabase.get_ISOAdd_ne m name k _ _ _ hkn] at hk
    exact h k t hk

/-- C23: every entry of the initialised thread database is usable to build a screw.  For
every key `k` of `Init_ThreadLookup()` the record has `Name = k`, `Radius > 0`,
`Pitch > 0` and units "inch" or "mm"; the database has 62 keys, one for each of the 62
`UTSAdd` and `ISOAdd` calls, so the names are pairwise distinct and no entry overwrites
another; and `UTSAdd` stores half the diameter, `1/tpi` and "inch", `ISOAdd` half the
diameter, the given pitch and "mm". -/
theorem init_threadLookup_usable (F : Type) [LinearOrderedField F] :
    (∀ k t, (Init_ThreadLookup F).get k = some t →
        t.Name = k ∧ 0 < t.Radius ∧ 0 < t.Pitch ∧ (t.Units = "inch" ∨ t.Units = "mm")) ∧
      (Init_ThreadLookup F).entries.keys.length = 62 ∧
      (Init_ThreadLookup F).entries.keys.Nodup ∧
      (∀ (m : ThreadDatabase F) (name : String) (diameter tpi hex_f2f : F),
        (m.UTSAdd name diameter tpi hex_f2f).get name =
          some ⟨name, diameter / 2, 1 / tpi, hex_f2f, "inch"⟩) ∧
      (∀ (m : ThreadDatabase F) (name : String) (diameter pitch hex_f2f : F),
        (m.ISOAdd name diameter pitch hex_f2f).get name =
          some ⟨name, diameter / 2, pitch, hex_f2f, "mm"⟩) := by
  refine ⟨?_, ?_, AList.keys_nodup _, ?_, ?_⟩
  · unfold Init_ThreadLookup
    iterate 42 refine ThreadDatabase.usable_ISOAdd _ _ _ _ _ (by norm_num) (by norm_num) ?_
    iterate 20 refine ThreadDatabase.usable_UTSAdd _ _ _ _ _ (by norm_num) (by norm_num) ?_
    intro k t hk
    rw [ThreadDatabase.get_make] at hk
    exact absurd hk (by simp)
  · rw [Init_ThreadLookup_keys]
    rfl
  · intro m name diameter tpi hex_f2f
    rw [ThreadDatabase.get_UTSAdd_self]
    norm_num
  · intro m name diameter pitch hex_f2f
    rw [ThreadDatabase.get_ISOAdd_self]
    norm_num

/-- Witness of C23: the keys "unc_1/4" and "M6x1" over the rationals.  The UTS entry has
radius `1/8` (half of `1/4`), pitch `1/20` and units "inch"; the ISO entry has radius 3
(half of 6), pitch 1 and units "mm". -/
theorem init_threadLookup_usable_witness :
    (Init_ThreadLookup ℚ).get "unc_1/4" = some ⟨"unc_1/4", 1 / 8, 1 / 20, 7 / 16, "inch"⟩ ∧
      (Init_ThreadLookup ℚ).get "M6x1" = some ⟨"M6x1", 3, 1, 10, "mm"⟩ ∧
      ((⟨"M6x1", 3, 1, 10, "mm"⟩ : ThreadParameters ℚ).Name = "M6x1" ∧
        (0 : ℚ) < (⟨"M6x1", 3, 1, 10, "mm"⟩ : ThreadParameters ℚ).Radius ∧
        (0 : ℚ) < (⟨"M6x1", 3, 1, 10, "mm"⟩ : ThreadParameters ℚ).Pitch ∧
        ((⟨"M6x1", 3, 1, 10, "mm"⟩ : ThreadParameters ℚ).Units = "inch" ∨
          (⟨"M6x1", 3, 1, 10, "mm"⟩ : ThreadParameters ℚ).Units = "mm")) := by
  have h1 : (Init_ThreadLookup ℚ).get "unc_1/4" =
      some ⟨"unc_1/4", 1 / 8, 1 / 20, 7 / 16, "inch"⟩ := by
    unfold Init_ThreadLookup
    simp only [ne_eq, String.reduceEq, not_false_eq_true, ThreadDatabase.get_ISOAdd_ne,
      ThreadDatabase.get_UTSAdd_ne, ThreadDatabase.get_UTSAdd_self]
    norm_num
  have h2 : (Init_ThreadLookup ℚ).get "M6x1" = some ⟨"M6x1", 3, 1, 10, "mm"⟩ := by
    unfold Init_ThreadLookup
    simp only [ne_eq, String.reduceEq, not_false_eq_true, ThreadDatabase.get_ISOAdd_ne,
      ThreadDatabase.get_ISOAdd_self]
    norm_num
  exact ⟨h1, h2, (init_threadLookup_usable ℚ).1 "M6x1" _ h2⟩

/-! ### The Acme profile -/

/-- The frozen vertex list of the Acme profile, vertex by vertex: no vertex is rounded, so
the arcs play no part. -/
theorem AcmeThread_vertices {F : Type} [LinearOrderedField F] [FloorRing F] [GoMath F]
    (arc : List (PolygonVertex F) → Nat → List (V2 F)) (radius pitch : F) :
    (AcmeThread.polygon radius pitch).Vertices arc =
      [⟨radius, 0⟩, ⟨radius, radius - 0.5 * pitch⟩,
        ⟨0.25 * pitch + 0.25 * pitch * GoMath.Tan (DtoR (29.0 / 2.0)), radius - 0.5 * pitch⟩,
        ⟨0.25 * pitch - 0.25 * pitch * GoMath.Tan (DtoR (29.0 / 2.0)), radius⟩,
        ⟨-(0.25 * pitch - 0.25 * pitch * GoMath.Tan (DtoR (29.0 / 2.0))), radius⟩,
        ⟨-(0.25 * pitch + 0.25 * pitch * GoMath.Tan (DtoR (29.0 / 2.0))), radius - 0.5 * pitch⟩,
        ⟨-radius, radius - 0.5 * pitch⟩, ⟨-radius, 0⟩] :=
  rfl

/-- C24 (as stated, refuted): in the Acme profile of radius 10 and pitch 2 the crest flat
runs from `(x_ofs0, 10)` to `(-x_ofs0, 10)`: its centre is at `x = 0`, on the y-axis and
at the height of the crest, not at `x = pitch/4` or `x = -pitch/4` and not on the
pitch line `y = radius - pitch/4`; the root flat from `(10, h)` to `(x_ofs1, h)` has its
centre at an `x` above 5, not at `pitch/4 = 1/2`. -/
theorem acme_flats_counterexample :
    ∃ h x_ofs0 x_ofs1 : ℝ,
      (AcmeThread.polygon (10 : ℝ) 2).Vertices (fun _ _ => []) =
          [⟨10, 0⟩, ⟨10, h⟩, ⟨x_ofs1, h⟩, ⟨x_ofs0, 10⟩, ⟨-x_ofs0, 10⟩, ⟨-x_ofs1, h⟩,
            ⟨-10, h⟩, ⟨-10, 0⟩] ∧
        (x_ofs0 + -x_ofs0) / 2 = 0 ∧
        (x_ofs0 + -x_ofs0) / 2 ≠ (2 : ℝ) / 4 ∧
        (x_ofs0 + -x_ofs0) / 2 ≠ -((2 : ℝ) / 4) ∧
        (10 : ℝ) ≠ 10 - 2 / 4 ∧
        (2 : ℝ) / 4 < (10 + x_ofs1) / 2 ∧
        5 < (10 + x_ofs1) / 2 := by
  have hdeg : (29.0 / 2.0 : ℝ) = 14.5 := by norm_num
  obtain ⟨ht0, ht1⟩ := tan_acme_flank
  rw [hdeg] at ht0 ht1
  refine ⟨10 - 0.5 * 2,
    0.25 * 2 - 0.25 * 2 * GoMath.Tan (DtoR (14.5 : ℝ)),
    0.25 * 2 + 0.25 * 2 * GoMath.Tan (DtoR (14.5 : ℝ)), ?_, ?_, ?_, ?_, ?_, ?_, ?_⟩
  · rw [AcmeThread_vertices, hdeg]
  · ring
  · norm_num
  · norm_num
  · norm_num
  · norm_num
    linarith
  · norm_num
    linarith

/-- C24 (amended): the Acme profile has a 29-degree included thread angle.  For every
radius and `pitch > 0` the vertex list built by `AcmeThread` is
`(radius, 0), (radius, h), (x_ofs1, h), (x_ofs0, radius)` followed by the mirror images in
reverse order; each flank, from `(x_ofs1, h)` to `(x_ofs0, radius)`, has rise
`radius - h = pitch/2` and run `x_ofs1 - x_ofs0 = (pitch/2) tan(14.5°)`, so
`run/rise = tan(14.5°)` and the flank makes the angle 14.5° with the vertical, 29°
included; the two flanks are centred at `x = pitch/4` and `x = -pitch/4` on the pitch
line `y = radius - pitch/4`, the crest flat from `(x_ofs0, radius)` to
`(-x_ofs0, radius)` is centred on the y-axis; and the vertex list is mirror-symmetric
about the y-axis. -/
theorem acme_thread_angle (arc : List (PolygonVertex ℝ) → Nat → List (V2 ℝ))
    (radius pitch : ℝ) (hp : 0 < pitch) :
    ∃ h x_ofs0 x_ofs1 : ℝ,
      (AcmeThread.polygon radius pitch).Vertices arc =
          [⟨radius, 0⟩, ⟨radius, h⟩, ⟨x_ofs1, h⟩, ⟨x_ofs0, radius⟩, ⟨-x_ofs0, radius⟩,
            ⟨-x_ofs1, h⟩, ⟨-radius, h⟩, ⟨-radius, 0⟩] ∧
        radius - h = pitch / 2 ∧
        x_ofs1 - x_ofs0 = (pitch / 2) * GoMath.Tan (DtoR (14.5 : ℝ)) ∧
        (x_ofs1 - x_ofs0) / (radius - h) = GoMath.Tan (DtoR (14.5 : ℝ)) ∧
        Real.arctan ((x_ofs1 - x_ofs0) / (radius - h)) = DtoR (14.5 : ℝ) ∧
        2 * Real.arctan ((x_ofs1 - x_ofs0) / (radius - h)) = DtoR (29 : ℝ) ∧
        (x_ofs0 + x_ofs1) / 2 = pitch / 4 ∧
        (-x_ofs0 + -x_ofs1) / 2 = -(pitch / 4) ∧
        (h + radius) / 2 = radius - pitch / 4 ∧
        (x_ofs0 + -x_ofs0) / 2 = 0 ∧
        (((AcmeThread.polygon radius pitch).Vertices arc).reverse.map
            (fun v => (⟨-v.X, v.Y⟩ : V2 ℝ)) =
          (AcmeThread.polygon radius pitch).Vertices arc) := by
  have hdeg : (29.0 / 2.0 : ℝ) = 14.5 := by norm_num
  have hpi := Real.pi_pos
  have hlo : -(Real.pi / 2) < DtoR (14.5 : ℝ) := by
    show -(Real.pi / 2) < Real.pi * 14.5 / 180
    have : (0 : ℝ) ≤ Real.pi * 14.5 / 180 := by positivity
    linarith
  have hhi : DtoR (14.5 : ℝ) < Real.pi / 2 := by
    show Real.pi * 14.5 / 180 < Real.pi / 2
    norm_num
    linarith
  have hrise : radius - (radius - 0.5 * pitch) = pitch / 2 := by
    norm_num
    ring
  have hrun : (0.25 * pitch + 0.25 * pitch * GoMath.Tan (DtoR (14.5 : ℝ)))
      - (0.25 * pitch - 0.25 * pitch * GoMath.Tan (DtoR (14.5 : ℝ)))
      = (pitch / 2) * GoMath.Tan (DtoR (14.5 : ℝ)) := by
    norm_num
    ring
  have hratio : ((0.25 * pitch + 0.25 * pitch * GoMath.Tan (DtoR (14.5 : ℝ)))
      - (0.25 * pitch - 0.25 * pitch * GoMath.Tan (DtoR (14.5 : ℝ))))
        / (radius - (radius - 0.5 * pitch)) = GoMath.Tan (DtoR (14.5 : ℝ)) := by
    rw [hrise, hrun]
    field_simp
  have hatan : Real.arctan (GoMath.Tan (DtoR (14.5 : ℝ))) = DtoR (14.5 : ℝ) :=
    Real.arctan_tan hlo hhi
  refine ⟨radius - 0.5 * pitch,
    0.25 * pitch - 0.25 * pitch * GoMath.Tan (DtoR (14.5 : ℝ)),
    0.25 * pitch + 0.25 * pitch * GoMath.Tan (DtoR (14.5 : ℝ)), ?_, hrise, hrun, hratio, ?_, ?_,
    ?_, ?_, ?_, ?_, ?_⟩
  · rw [AcmeThread_vertices, hdeg]
  · rw [hratio, hatan]
  · rw [hratio, hatan]
    show 2 * (Real.pi * 14.5 / 180) = Real.pi * 29 / 180
    ring
  · ring
  · ring
  · norm_num
    ring
  · ring
  · rw [AcmeThread_vertices]
    simp

/-- Witness of C24 (amended): the Acme thread of radius 10 and pitch 2, with empty
arcs. -/
theorem acme_thread_angle_witness :
    (0 : ℝ) < 2 ∧
      ∃ h x_ofs0 x_ofs1 : ℝ,
        (AcmeThread.polygon (10 : ℝ) 2).Vertices (fun _ _ => []) =
            [⟨10, 0⟩, ⟨10, h⟩, ⟨x_ofs1, h⟩, ⟨x_ofs0, 10⟩, ⟨-x_ofs0, 10⟩, ⟨-x_ofs1, h⟩,
              ⟨-10, h⟩, ⟨-10, 0⟩] ∧
          (10 : ℝ) - h = 2 / 2 ∧
          x_ofs1 - x_ofs0 = (2 / 2) * GoMath.Tan (DtoR (14.5 : ℝ)) ∧
          2 * Real.arctan ((x_ofs1 - x_ofs0) / (10 - h)) = DtoR (29 : ℝ) ∧
          (x_ofs0 + x_ofs1) / 2 = (2 : ℝ) / 4 := by
  obtain ⟨h, x0, x1, hv, h1, h2, _, _, h5, h6, _⟩ :=
    acme_thread_angle (fun _ _ => []) 10 2 (by norm_num)
  exact ⟨by norm_num, h, x0, x1, hv, h1, h2, h5, h6⟩

end sdf
